import Mathlib

/-!
# Triangulation and depth propagation of the visual-inertial odometry front end

A shallow embedding of `src/include/pauvsi_vio/vioTriangulate.cpp` and
`src/include/pauvsi_vio/Motion.cpp`.

Conventions of the embedding.

* `double` values are elements of a field `K`; the statements are about exact
  arithmetic.  The square root of `FindOptimalImagePoints` is an argument of
  the embedded function, so that the function can be evaluated over `ℚ` and
  instantiated with `Real.sqrt` over `ℝ`.
* Eigen and OpenCV fixed-size vectors and matrices are `Fin n → K` and
  `Matrix (Fin m) (Fin n) K`.
* The singular value decompositions (`Eigen::JacobiSVD`, `cv::SVD`) are library
  code; they are arguments of the embedded functions and the theorems state
  what they assume of them (`IsSVD`).
* Member functions of `VIO` pass the state explicitly: a call returns the
  state it leaves together with the error that ended it early, if any
  (`std::out_of_range` thrown by `at`, or a failed `ROS_ASSERT`).
-/

namespace VIO

open Matrix

/-! ## Eigen helpers used by the source -/

section Eigen

variable {K : Type} [Field K]

/-- Eigen `homogeneous()` of a 2-vector: appends a 1. -/
def homogeneous (p : Fin 2 → K) : Fin 3 → K := ![p 0, p 1, 1]

/-- Eigen `hnormalized()` of a 3-vector: divides by the last coordinate and drops it. -/
def hnormalized (v : Fin 3 → K) : Fin 2 → K := ![v 0 / v 2, v 1 / v 2]

/-- Eigen `squaredNorm()` of a 2-vector. -/
def squaredNorm (v : Fin 2 → K) : K := v 0 * v 0 + v 1 * v 1

/-- Eigen `topLeftCorner<2, 2>()` of a 3x3 matrix. -/
def topLeftCorner (m : Matrix (Fin 3) (Fin 3) K) : Matrix (Fin 2) (Fin 2) K :=
  !![m 0 0, m 0 1; m 1 0, m 1 1]

/-- The helper matrix `s_matrix << 1, 0, 0, 0, 1, 0` of `FindOptimalImagePoints`. -/
def s_matrix : Matrix (Fin 2) (Fin 3) K := !![1, 0, 0; 0, 1, 0]

/-- `VIO::FindOptimalImagePoints` (vioTriangulate.cpp, lines 27-62).  The two
output parameters `corrected_point1`, `corrected_point2` are the returned pair.
`sqrt` is the square root of the C library. -/
def FindOptimalImagePoints (sqrt : K → K) (ematrix : Matrix (Fin 3) (Fin 3) K)
    (point1 point2 : Fin 2 → K) : (Fin 2 → K) × (Fin 2 → K) :=
  let point1_homog := homogeneous point1
  let point2_homog := homogeneous point2
  let e_submatrix := topLeftCorner ematrix
  let epipolar_line1 := (s_matrix * ematrix).mulVec point2_homog
  let epipolar_line2 := (s_matrix * ematrix.transpose).mulVec point1_homog
  let a := dotProduct epipolar_line1 (e_submatrix.mulVec epipolar_line2)
  let b := (squaredNorm epipolar_line1 + squaredNorm epipolar_line2) / 2
  let c := dotProduct point1_homog (ematrix.mulVec point2_homog)
  let d := sqrt (b * b - a * c)
  let lambda := c / (b + d)
  let epipolar_line1 := epipolar_line1 - (lambda • e_submatrix).mulVec epipolar_line1
  let epipolar_line2 :=
    epipolar_line2 - (lambda • e_submatrix.transpose).mulVec epipolar_line2
  let lambda := lambda * ((2 * d) / (squaredNorm epipolar_line1 + squaredNorm epipolar_line2))
  (hnormalized (point1_homog - (lambda • s_matrix.transpose).mulVec epipolar_line1),
   hnormalized (point2_homog - (lambda • s_matrix.transpose).mulVec epipolar_line2))

/-- The algebraic epipolar residual `(c1,1)^T * E * (c2,1)` of a pair of image points. -/
def epipolarResidual (ematrix : Matrix (Fin 3) (Fin 3) K) (c1 c2 : Fin 2 → K) : K :=
  dotProduct (homogeneous c1) (ematrix.mulVec (homogeneous c2))


/-- The 3x3 determinant with entries `a b c / d e f / g h i`, used for the
cofactors of `determinant`. -/
def det3 (a b c d e f g h i : K) : K :=
  a * (e * i - f * h) - b * (d * i - f * g) + c * (d * h - e * g)

/-- Eigen `determinant()` of a fixed-size 4x4 matrix, as the cofactor expansion
along the first row. -/
def determinant (m : Matrix (Fin 4) (Fin 4) K) : K :=
  m 0 0 * det3 (m 1 1) (m 1 2) (m 1 3) (m 2 1) (m 2 2) (m 2 3) (m 3 1) (m 3 2) (m 3 3)
  - m 0 1 * det3 (m 1 0) (m 1 2) (m 1 3) (m 2 0) (m 2 2) (m 2 3) (m 3 0) (m 3 2) (m 3 3)
  + m 0 2 * det3 (m 1 0) (m 1 1) (m 1 3) (m 2 0) (m 2 1) (m 2 3) (m 3 0) (m 3 1) (m 3 3)
  - m 0 3 * det3 (m 1 0) (m 1 1) (m 1 2) (m 2 0) (m 2 1) (m 2 2) (m 3 0) (m 3 1) (m 3 2)

/-- The table `index1[3] = { 1, 2, 0 }` of `FundamentalMatrixFromProjectionMatrices`. -/
def index1 : Fin 3 → Fin 3 := ![1, 2, 0]

/-- The table `index2[3] = { 2, 0, 1 }` of `FundamentalMatrixFromProjectionMatrices`. -/
def index2 : Fin 3 → Fin 3 := ![2, 0, 1]

/-- `VIO::FundamentalMatrixFromProjectionMatrices` (vioTriangulate.cpp, lines
83-101).  The arguments are the `Eigen::Map` views `projection1`, `projection2`
of the two input arrays and the result is the view `fundamental_matrix` of the
output array.  Entry `(r, c)` is the determinant of `temp_mat`, whose rows 0, 1
come from `projection2` (indexed by `c`) and whose rows 2, 3 come from
`projection1` (indexed by `r`). -/
def FundamentalMatrixFromProjectionMatrices (projection1 projection2 : Matrix (Fin 3) (Fin 4) K) :
    Matrix (Fin 3) (Fin 3) K :=
  Matrix.of fun r c =>
    determinant (Matrix.of ![projection2 (index1 c), projection2 (index2 c),
                             projection1 (index1 r), projection1 (index2 r)])

/-- The `design_matrix` of `TriangulateDLT` (vioTriangulate.cpp, lines 68-72). -/
def design_matrix (pose1 pose2 : Matrix (Fin 3) (Fin 4) K) (point1 point2 : Fin 2 → K) :
    Matrix (Fin 4) (Fin 4) K :=
  Matrix.of ![point1 0 • pose1 2 - pose1 0,
              point1 1 • pose1 2 - pose1 1,
              point2 0 • pose2 2 - pose2 0,
              point2 1 • pose2 2 - pose2 1]

/-- Eigen `rightCols<1>()` of a 4x4 matrix: its last column. -/
def rightCols1 (m : Matrix (Fin 4) (Fin 4) K) : Fin 4 → K := fun i => m i 3

/-- `VIO::TriangulateDLT` (vioTriangulate.cpp, lines 65-78).  The first
component is the returned `bool`, the second the value written to
`triangulated_point`.  `jacobiSvdMatrixV` is Eigen's
`jacobiSvd(Eigen::ComputeFullV).matrixV()`. -/
def TriangulateDLT (jacobiSvdMatrixV : Matrix (Fin 4) (Fin 4) K → Matrix (Fin 4) (Fin 4) K)
    (pose1 pose2 : Matrix (Fin 3) (Fin 4) K) (point1 point2 : Fin 2 → K) :
    Bool × (Fin 4 → K) :=
  (true, rightCols1 (jacobiSvdMatrixV (design_matrix pose1 pose2 point1 point2)))

/-- `VIO::Triangulate` (vioTriangulate.cpp, lines 104-118). -/
def Triangulate (sqrt : K → K)
    (jacobiSvdMatrixV : Matrix (Fin 4) (Fin 4) K → Matrix (Fin 4) (Fin 4) K)
    (pose1 pose2 : Matrix (Fin 3) (Fin 4) K) (point1 point2 : Fin 2 → K)
    (fmatrix : Matrix (Fin 3) (Fin 3) K) : Bool × (Fin 4 → K) :=
  let corrected := FindOptimalImagePoints sqrt fmatrix point1 point2
  TriangulateDLT jacobiSvdMatrixV pose1 pose2 corrected.1 corrected.2

/-- The result of `cv::SVD`: the members `u`, `w` (singular values) and `vt`. -/
structure SVD (K : Type) where
  /-- The left singular vectors, as columns. -/
  u : Matrix (Fin 3) (Fin 3) K
  /-- The singular values. -/
  w : Fin 3 → K
  /-- The right singular vectors, as rows. -/
  vt : Matrix (Fin 3) (Fin 3) K

/-- `VIO::decomposeEssentialMatrix` (vioTriangulate.cpp, lines 213-227).  The
result is the value written to `Rt`; `svd` is the constructor `cv::SVD svd(E)`. -/
def decomposeEssentialMatrix (svd : Matrix (Fin 3) (Fin 3) K → SVD K)
    (E : Matrix (Fin 3) (Fin 3) K) : Matrix (Fin 3) (Fin 4) K :=
  let svd := svd E
  let W : Matrix (Fin 3) (Fin 3) K := !![0, -1, 0; 1, 0, 0; 0, 0, 1]
  let R := svd.u * W * svd.vt
  let t : Fin 3 → K := fun i => svd.u i 2
  !![R 0 0, R 0 1, R 0 2, t 0;
     R 1 0, R 1 1, R 1 2, t 1;
     R 2 0, R 2 1, R 2 2, t 2]

/-- The cross-product matrix `[t]x` of a 3-vector. -/
def crossMatrix (t : Fin 3 → K) : Matrix (Fin 3) (Fin 3) K :=
  !![0, -(t 2), t 1; t 2, 0, -(t 0); -(t 1), t 0, 0]

/-- The rotation block of a 3x4 matrix `[R | t]`. -/
def rotationPart (Rt : Matrix (Fin 3) (Fin 4) K) : Matrix (Fin 3) (Fin 3) K :=
  !![Rt 0 0, Rt 0 1, Rt 0 2; Rt 1 0, Rt 1 1, Rt 1 2; Rt 2 0, Rt 2 1, Rt 2 2]

/-- The translation column of a 3x4 matrix `[R | t]`. -/
def translationPart (Rt : Matrix (Fin 3) (Fin 4) K) : Fin 3 → K := fun i => Rt i 3

end Eigen

/-- What the source relies on from a singular value decomposition
`A = U * diag(w) * Vt`: `U` and `Vt` are orthogonal and the singular values are
non-negative and sorted in decreasing order, as Eigen and OpenCV document. -/
def IsSVD {K : Type} [LinearOrderedField K] {n : ℕ} (A U : Matrix (Fin n) (Fin n) K)
    (w : Fin n → K) (Vt : Matrix (Fin n) (Fin n) K) : Prop :=
  U.transpose * U = 1 ∧ Vt * Vt.transpose = 1 ∧ (∀ i, 0 ≤ w i) ∧
    (∀ i j, i ≤ j → w j ≤ w i) ∧ A = U * Matrix.diagonal w * Vt

/-- The essential matrix of a forward translation along the optical axis
without rotation, `[t]x` for `t = (0, 0, 1)`. -/
def forwardEssential (K : Type) [Field K] : Matrix (Fin 3) (Fin 3) K :=
  !![0, -1, 0; 1, 0, 0; 0, 0, 0]

/-! ## A concrete two-view configuration

The cameras `dltPose1`, `dltPose2` see the point `dltPoint`; `dltDesign` is the
design matrix of the noise-free correspondence and `dltU`, `dltW`, `dltV` a
singular value decomposition of it. -/

/-- First camera of the concrete configuration. -/
def dltPose1 (K : Type) [Field K] : Matrix (Fin 3) (Fin 4) K :=
  !![1, 0, 0, 0; 0, 3, 0, 0; 0, 0, 0, 1]

/-- Second camera of the concrete configuration. -/
def dltPose2 (K : Type) [Field K] : Matrix (Fin 3) (Fin 4) K :=
  !![0, 0, 1, 0; 0, 4, 0, 0; 0, 0, 0, 1]

/-- The homogeneous point of the concrete configuration. -/
def dltPoint (K : Type) [Field K] : Fin 4 → K := ![0, 0, 0, 1]

/-- The design matrix of the concrete configuration. -/
def dltDesign (K : Type) [Field K] : Matrix (Fin 4) (Fin 4) K :=
  !![-1, 0, 0, 0; 0, -3, 0, 0; 0, 0, -1, 0; 0, -4, 0, 0]

/-- Left singular vectors of `dltDesign`. -/
def dltU (K : Type) [Field K] : Matrix (Fin 4) (Fin 4) K :=
  !![0, -1, 0, 0; -3/5, 0, 0, 4/5; 0, 0, -1, 0; -4/5, 0, 0, -3/5]

/-- Singular values of `dltDesign`. -/
def dltW (K : Type) [Field K] : Fin 4 → K := ![5, 1, 1, 0]

/-- Right singular vectors of `dltDesign`, as columns. -/
def dltV (K : Type) [Field K] : Matrix (Fin 4) (Fin 4) K :=
  !![0, 1, 0, 0; 1, 0, 0, 0; 0, 0, 1, 0; 0, 0, 0, 1]

/-- A singular value decomposition of `forwardEssential`: `u` is the identity,
the singular values are `1, 1, 0`, and `vt` is orthogonal with determinant `-1`. -/
def reflectedSVD (K : Type) [Field K] : SVD K :=
  { u := 1
    w := ![1, 1, 0]
    vt := !![0, -1, 0; 1, 0, 0; 0, 0, -1] }

/-! ## The rigid transforms of the `tf` library -/

/-- `tf::Quaternion`, with the coordinates in the order of its constructor. -/
structure Quaternion (K : Type) where
  /-- First imaginary coordinate. -/
  x : K
  /-- Second imaginary coordinate. -/
  y : K
  /-- Third imaginary coordinate. -/
  z : K
  /-- Real coordinate. -/
  w : K

/-- `tf::Transform`: a rotation `m_basis` and a translation `m_origin`. -/
structure Transform (K : Type) where
  /-- The rotation matrix. -/
  m_basis : Matrix (Fin 3) (Fin 3) K
  /-- The translation vector. -/
  m_origin : Fin 3 → K

section Tf

variable {K : Type} [Field K]

/-- `tf::Quaternion::length2`. -/
def Quaternion.length2 (q : Quaternion K) : K :=
  q.x * q.x + q.y * q.y + q.z * q.z + q.w * q.w

/-- `tf::Matrix3x3::setRotation`: the rotation matrix of a quaternion. -/
def setRotation (q : Quaternion K) : Matrix (Fin 3) (Fin 3) K :=
  let d := q.length2
  let s := 2 / d
  let xs := q.x * s
  let ys := q.y * s
  let zs := q.z * s
  let wx := q.w * xs
  let wy := q.w * ys
  let wz := q.w * zs
  let xx := q.x * xs
  let xy := q.x * ys
  let xz := q.x * zs
  let yy := q.y * ys
  let yz := q.y * zs
  let zz := q.z * zs
  !![1 - (yy + zz), xy - wz, xz + wy;
     xy + wz, 1 - (xx + zz), yz - wx;
     xz - wy, yz + wx, 1 - (xx + yy)]

/-- The constructor `tf::Transform(const Quaternion& q, const Vector3& c)`. -/
def Transform.ofQuaternion (q : Quaternion K) (c : Fin 3 → K) : Transform K :=
  ⟨setRotation q, c⟩

/-- `tf::Transform::operator()(const Vector3& x)`, also `Transform * Vector3`. -/
def Transform.apply (t : Transform K) (x : Fin 3 → K) : Fin 3 → K :=
  t.m_basis.mulVec x + t.m_origin

/-- `tf::Transform::operator*(const Transform& t)`. -/
def Transform.mul (t1 t2 : Transform K) : Transform K :=
  ⟨t1.m_basis * t2.m_basis, t1.apply t2.m_origin⟩

/-- `tf::Transform::inverse`. -/
def Transform.inverse (t : Transform K) : Transform K :=
  let inv := t.m_basis.transpose
  ⟨inv, inv.mulVec (-t.m_origin)⟩

/-- `tf::Transform::getIdentity`. -/
def Transform.identity : Transform K := ⟨1, 0⟩

/-- The identity orientation, `tf::Quaternion(0, 0, 0, 1)`. -/
def Quaternion.identity : Quaternion K := ⟨0, 0, 0, 1⟩

end Tf

/-! ## The data model -/

/-- The two ways a call can fail: a `std::out_of_range` exception thrown by
`at`, and a failed `ROS_ASSERT`. -/
inductive VIOError where
  | outOfRange
  | assertionFailed
  deriving DecidableEq, Repr

/-- `cv::Point2f`. -/
structure Point2f (K : Type) where
  /-- Horizontal coordinate. -/
  x : K
  /-- Vertical coordinate. -/
  y : K

/-- Modelled from the spec: the class `VIOState` is declared in a header that is
not among the sources.  The fields are the body position read by `x()`, `y()`,
`z()` and the orientation returned by `getTFQuaternion()` ("filter's estimate of
body position + orientation"). -/
structure VIOState (K : Type) where
  /-- Position, first coordinate. -/
  x : K
  /-- Position, second coordinate. -/
  y : K
  /-- Position, third coordinate. -/
  z : K
  /-- Orientation. -/
  getTFQuaternion : Quaternion K

/-- Modelled from the spec: the class `VIOFeature2D` is declared in a header that
is not among the sources.  The fields are those of the spec's `Feature2D` ("pixel
coordinate (raw + lens-undistorted), a stable feature identity, an optional match
reference (identity + index) into another frame's feature list, a scalar depth
estimate along the camera ray, and a depth variance"), named after the accessors
the source calls: `getUndistorted`, `getFeatureID`, `isMatched`,
`getMatchedIndex`, `getMatchedID`, `getFeatureDepth`. -/
structure VIOFeature2D (K : Type) where
  /-- Raw pixel coordinate. -/
  position : Point2f K
  /-- Lens-undistorted coordinate, `getUndistorted()`. -/
  undistorted : Point2f K
  /-- Feature identity, `getFeatureID()`. -/
  featureID : Int
  /-- Whether the feature has a match, `isMatched()`. -/
  matched : Bool
  /-- Index of the match in the other frame's feature list, `getMatchedIndex()`. -/
  matchedIndex : Int
  /-- Identity of the match, `getMatchedID()`. -/
  matchedID : Int
  /-- Depth along the camera ray, `getFeatureDepth()`. -/
  depth : K
  /-- Depth variance. -/
  variance : K

/-- Modelled from the spec: `VIOFeature2D::setFeatureDepth`, declared in a header
that is not among the sources, writes the depth estimate of the feature. -/
def VIOFeature2D.setFeatureDepth {K : Type} (e : VIOFeature2D K) (d : K) : VIOFeature2D K :=
  { e with depth := d }

/-- Modelled from the spec: the class `VIOFeature3D` is declared in a header that
is not among the sources.  The fields are those of the spec's `Feature3D` ("3D
position in world coordinates, a variance, and a reference to the 2D feature it was
last observed as"), under the member names the source uses. -/
structure VIOFeature3D (K : Type) where
  /-- Position in world coordinates. -/
  position : Fin 3 → K
  /-- Variance of the landmark. -/
  variance : K
  /-- Identity of the 2D feature last matched. -/
  current2DFeatureMatchID : Int
  /-- Index of the 2D feature last matched. -/
  current2DFeatureMatchIndex : Int

/-- Modelled from the spec: the class `Frame` is declared in a header that is not
among the sources.  The fields are the members the source reads: `state`,
`features` and `nextFeatureID`. -/
structure Frame (K : Type) where
  /-- The state at capture time. -/
  state : VIOState K
  /-- The 2D features of the frame. -/
  features : List (VIOFeature2D K)
  /-- The feature counter of the frame. -/
  nextFeatureID : Int

/-- Modelled from the spec: the struct `KeyFrame` used by `Motion.cpp` is declared
in a header that is not among the sources.  Its member `frame` is a pointer into
`frameBuffer`, represented by the index of the frame it points at. -/
structure KeyFrame where
  /-- Index in `frameBuffer` of the frame pointed at. -/
  frame : Nat
  deriving DecidableEq, Repr

/-- Modelled from the spec: the struct `KeyFrameInfo` used by `vioTriangulate.cpp`
is declared in a header that is not among the sources.  The fields are the members
the source reads: `frameBufferIndex`, `nextFeatureID`, `currentFrameIndexes` and
`matchedFeatures`. -/
structure KeyFrameInfo (K : Type) where
  /-- Index in `frameBuffer` of the backing frame. -/
  frameBufferIndex : Int
  /-- The stored feature counter. -/
  nextFeatureID : Int
  /-- For each matched keyframe feature, its index in the current frame. -/
  currentFrameIndexes : List Int
  /-- The keyframe features matched into the current frame. -/
  matchedFeatures : List (VIOFeature2D K)

/-- The members of the class `VIO` that the two source files use.  `KF` is the type
of the elements of `keyFrames`: `KeyFrame` in `Motion.cpp`, `KeyFrameInfo` in
`vioTriangulate.cpp`. -/
structure State (K : Type) (KF : Type) where
  /-- The frame history. -/
  frameBuffer : List (Frame K)
  /-- The keyframe records. -/
  keyFrames : List KF
  /-- The active landmarks. -/
  active3DFeatures : List (VIOFeature3D K)

/-- The outcome of a call of a member function: the state it leaves, and the error
that ended it early, if any. -/
abbrev Outcome (K : Type) (KF : Type) := State K KF × Option VIOError

/-- The conversion of an `int` to the 64-bit `size_t` that `at` takes. -/
@[irreducible]
def toSizeT (i : Int) : Nat := (i % 2 ^ 64).toNat

/-- The difference `n - k` of two `size_t` values, which wraps around below zero. -/
@[irreducible]
def sizeSub (n k : Nat) : Nat := (n + 2 ^ 64 - k) % 2 ^ 64

/-- The checked access `std::vector::at` / `std::deque::at`: throws
`std::out_of_range` when the index is not below the size. -/
def vectorAt {α : Type} (v : List α) (i : Nat) : Except VIOError α :=
  match v[i]? with
  | some a => Except.ok a
  | none => Except.error VIOError.outOfRange

/-- Modelled from the spec: `VIO::currentFrame` is declared in a header that is
not among the sources.  The frame history is append-only and its second-most-recent
frame has index `size - 2`, so the current frame is the last entry, `size - 1`
in `size_t` arithmetic. -/
def currentFrameIndex {K KF : Type} (s : State K KF) : Nat :=
  sizeSub s.frameBuffer.length 1

/-- Modelled from the spec: `VIO::lastFrame` is declared in a header that is not
among the sources.  The last frame is the second-most-recent entry of the history,
`size - 2` in `size_t` arithmetic. -/
def lastFrameIndex {K KF : Type} (s : State K KF) : Nat :=
  sizeSub s.frameBuffer.length 2

/-- Modelled from the spec: `VIO::currentFrame`, see `currentFrameIndex`. -/
def currentFrame {K KF : Type} (s : State K KF) : Except VIOError (Frame K) :=
  vectorAt s.frameBuffer (currentFrameIndex s)

/-- Modelled from the spec: `VIO::lastFrame`, see `lastFrameIndex`. -/
def lastFrame {K KF : Type} (s : State K KF) : Except VIOError (Frame K) :=
  vectorAt s.frameBuffer (lastFrameIndex s)

/-! ## `Motion.cpp` -/

/-- `VIO::updateKeyFrameInfo` (Motion.cpp, lines 11-25).  `frameBuffer.size() - 2`
is computed in 64-bit `size_t` arithmetic (`sizeSub`) and `at` throws when it is out
of range, before `keyFrames` is written. -/
def updateKeyFrameInfo {K : Type} (s : State K KeyFrame) : Outcome K KeyFrame :=
  let index := sizeSub s.frameBuffer.length 2
  if s.keyFrames.length < 1 then
    match vectorAt s.frameBuffer index with
    | Except.error e => (s, some e)
    | Except.ok _ =>
      let kf : KeyFrame := { frame := index }
      ({ s with keyFrames := s.keyFrames ++ [kf] }, none)
  else
    match vectorAt s.keyFrames 0 with
    | Except.error e => (s, some e)
    | Except.ok kf0 =>
      match vectorAt s.frameBuffer index with
      | Except.error e => (s, some e)
      | Except.ok _ =>
        ({ s with keyFrames := s.keyFrames.set 0 { kf0 with frame := index } }, none)

/-- `VIO::cameraTransformFromState` (Motion.cpp, lines 28-31). -/
def cameraTransformFromState {K : Type} [Field K] (x : VIOState K) (b2c : Transform K) :
    Transform K :=
  (Transform.ofQuaternion x.getTFQuaternion ![x.x, x.y, x.z]).mul b2c

/-! ## `vioTriangulate.cpp`: landmark ordering and depth propagation -/

/-- The comparator `less_than_key::operator()` (vioTriangulate.cpp, lines 10-14). -/
def less_than_key {K : Type} [LinearOrder K] (ft1 ft2 : VIOFeature3D K) : Bool :=
  decide (ft1.variance < ft2.variance)

/-- Insertion of `a` into a list in front of the first element that `comp` does
not place before `a`. -/
def sortInsert {α : Type} (comp : α → α → Bool) (a : α) : List α → List α
  | [] => [a]
  | b :: l => if comp b a then b :: sortInsert comp a l else a :: b :: l

/-- The library call `std::sort(first, last, comp)`, as the insertion sort that
calls nothing but the comparator. -/
def stdSort {α : Type} (comp : α → α → Bool) : List α → List α
  | [] => []
  | a :: l => sortInsert comp a (stdSort comp l)

/-- `VIO::sortActive3DFeaturesByVariance` (vioTriangulate.cpp, lines 16-19). -/
def sortActive3DFeaturesByVariance {K KF : Type} [LinearOrder K] (s : State K KF) :
    State K KF :=
  { s with active3DFeatures := stdSort less_than_key s.active3DFeatures }

/-- `tfTransform2RtMatrix` (vioTriangulate.cpp, lines 121-127). -/
def tfTransform2RtMatrix {K : Type} (t : Transform K) : Matrix (Fin 3) (Fin 4) K :=
  !![t.m_basis 0 0, t.m_basis 0 1, t.m_basis 0 2, t.m_origin 0;
     t.m_basis 1 0, t.m_basis 1 1, t.m_basis 1 2, t.m_origin 1;
     t.m_basis 2 0, t.m_basis 2 1, t.m_basis 2 2, t.m_origin 2]

/-- The body of the first loop of `updateFeatureDepths` (vioTriangulate.cpp, lines
172-182) for one current-frame feature `e`: the feature after the iteration, or the
error that ends the pass.  `lfFeatures` are the features of the last frame. -/
def propagateFeatureDepth {K : Type} [Field K] (last2current : Transform K)
    (lfFeatures : List (VIOFeature2D K)) (e : VIOFeature2D K) :
    Except VIOError (VIOFeature2D K) :=
  if e.matched then
    match vectorAt lfFeatures (toSizeT e.matchedIndex) with
    | Except.error err => Except.error err
    | Except.ok last_ft =>
      if last_ft.featureID = e.matchedID then
        let transformedPoint :=
          last2current.apply (last_ft.depth • ![last_ft.undistorted.x, last_ft.undistorted.y, 1])
        Except.ok (e.setFeatureDepth (transformedPoint 2))
      else Except.error VIOError.assertionFailed
  else Except.ok e

/-- The first loop of `updateFeatureDepths` (vioTriangulate.cpp, lines 170-184)
over the features of the current frame: the features when the loop ends, and the
error that ended it early, if any.  The features before the failing one have been
written, the failing one and those after it have not. -/
def propagateDepths {K : Type} [Field K] (last2current : Transform K)
    (lfFeatures : List (VIOFeature2D K)) :
    List (VIOFeature2D K) → List (VIOFeature2D K) × Option VIOError
  | [] => ([], none)
  | e :: es =>
    match propagateFeatureDepth last2current lfFeatures e with
    | Except.error err => (e :: es, some err)
    | Except.ok e1 =>
      let rest := propagateDepths last2current lfFeatures es
      (e1 :: rest.1, rest.2)

/-- The second loop of `updateFeatureDepths` (vioTriangulate.cpp, lines 191-210),
for the indices from `i` on.  Each iteration reads `kf.matchedFeatures.at(i)` and
`cf.features.at(kf.currentFrameIndexes.at(i))`; the solution `X` of `cv::solve` is
a local that is only logged, so an iteration writes no state and the loop is the
error of its first failing `at`, if any. -/
def triangulateLoop {K : Type} (matchedFeatures cfFeatures : List (VIOFeature2D K)) :
    Nat → List Int → Option VIOError
  | _, [] => none
  | i, index :: rest =>
    match vectorAt matchedFeatures i with
    | Except.error err => some err
    | Except.ok _ =>
      match vectorAt cfFeatures (toSizeT index) with
      | Except.error err => some err
      | Except.ok _ => triangulateLoop matchedFeatures cfFeatures (i + 1) rest

/-- The local `base2cam` after the `try` block of `updateFeatureDepths`
(vioTriangulate.cpp, lines 143-149).  `lookupTransform` is the result of
`tf_listener.lookupTransform`: `none` when it throws `tf::TransformException`, which
the source catches and logs.  `base2cam` is default-constructed, and the default
constructor of `tf::Transform` initialises nothing: `uninitialized` is the content the
local has then, which stays when the lookup fails. -/
def lookupBase2cam {K : Type} (lookupTransform : Option (Transform K))
    (uninitialized : Transform K) : Transform K :=
  match lookupTransform with
  | some t => t
  | none => uninitialized

/-- `VIO::updateFeatureDepths` (vioTriangulate.cpp, lines 141-211), with
assertions enabled.  The source does not read its argument `variance`.

* `lookupTransform` and `uninitialized` give the local `base2cam`, see
  `lookupBase2cam`.
* The argument of the `ROS_ASSERT` of line 154 is the assignment
  `kf.nextFeatureID = ...nextFeatureID`: it writes the counter of the backing frame
  to the keyframe record and the assertion fails when the value written is `0`.
* The matrices `P1`, `P2` and `A` are locals that feed `cv::solve` only; the `at` of
  line 166 repeats the one of line 154, which has succeeded by then. -/
def updateFeatureDepths {K : Type} [Field K] (lookupTransform : Option (Transform K))
    (uninitialized : Transform K) (x : VIOState K) (_variance : K)
    (s : State K (KeyFrameInfo K)) : Outcome K (KeyFrameInfo K) :=
  let base2cam := lookupBase2cam lookupTransform uninitialized
  match currentFrame s with
  | Except.error err => (s, some err)
  | Except.ok cf =>
  match lastFrame s with
  | Except.error err => (s, some err)
  | Except.ok lf =>
  match vectorAt s.keyFrames 0 with
  | Except.error err => (s, some err)
  | Except.ok kf =>
  match vectorAt s.frameBuffer (toSizeT kf.frameBufferIndex) with
  | Except.error err => (s, some err)
  | Except.ok kfFrame =>
    let kf := { kf with nextFeatureID := kfFrame.nextFeatureID }
    let s1 := { s with keyFrames := s.keyFrames.set 0 kf }
    if kf.nextFeatureID = 0 then (s1, some VIOError.assertionFailed)
    else
      let tf_current := cameraTransformFromState x base2cam
      let last2current := (cameraTransformFromState lf.state base2cam).inverse.mul tf_current
      let loop1 := propagateDepths last2current lf.features cf.features
      let s2 := { s1 with
        frameBuffer := s1.frameBuffer.set (currentFrameIndex s) { cf with features := loop1.1 } }
      let loop2 := match loop1.2 with
        | some err => some err
        | none => triangulateLoop kf.matchedFeatures loop1.1 0 kf.currentFrameIndexes
      (s2, loop2)

/-! ## A concrete history

Two frames on the optical axis, used to evaluate `updateFeatureDepths` and
`updateKeyFrameInfo`. -/

section Scenario

variable (K : Type) [Field K]

/-- A state at height `z` on the optical axis, with the identity orientation. -/
def axisState (z : K) : VIOState K :=
  { x := 0, y := 0, z := z, getTFQuaternion := Quaternion.identity }

/-- A feature on the optical axis: its undistorted coordinate is `(0, 0)`. -/
def axisFeature (featureID : Int) (matched : Bool) (matchedIndex matchedID : Int) (depth : K) :
    VIOFeature2D K :=
  { position := ⟨0, 0⟩, undistorted := ⟨0, 0⟩, featureID := featureID, matched := matched,
    matchedIndex := matchedIndex, matchedID := matchedID, depth := depth, variance := 0 }

/-- The last frame of the concrete history: at height `0`, with the on-axis feature 1
of depth `d` and the feature counter 7. -/
def axisLastFrame (d : K) : Frame K :=
  { state := axisState K 0, features := [axisFeature K 1 false 0 0 d], nextFeatureID := 7 }

/-- The current frame of the concrete history: at height `t`, with feature 2, matched
to feature 1 of the last frame and of depth `d2`, and the unmatched feature 3 of depth 4. -/
def axisCurrentFrame (t d2 : K) : Frame K :=
  { state := axisState K t
    features := [axisFeature K 2 true 0 1 d2, axisFeature K 3 false 0 0 4]
    nextFeatureID := 7 }

/-- The record of keyframe 0 of the concrete history: backed by frame 0 of the
history, with the stored feature counter `counter`. -/
def axisKeyFrame (counter : Int) : KeyFrameInfo K :=
  { frameBufferIndex := 0, nextFeatureID := counter, currentFrameIndexes := [],
    matchedFeatures := [] }

/-- The concrete history: the frames `axisLastFrame` and `axisCurrentFrame` and the
keyframe record `axisKeyFrame`. -/
def axisScenario (d t : K) (counter : Int) : State K (KeyFrameInfo K) :=
  { frameBuffer := [axisLastFrame K d, axisCurrentFrame K t 0]
    keyFrames := [axisKeyFrame K counter]
    active3DFeatures := [] }

/-- The concrete history before any keyframe record exists. -/
def axisHistory (d t : K) : State K KeyFrame :=
  { frameBuffer := [axisLastFrame K d, axisCurrentFrame K t 0]
    keyFrames := []
    active3DFeatures := [] }

end Scenario

/-! ## The coefficients of `FindOptimalImagePoints` and further concrete inputs -/

section Coefficients

variable {K : Type} [Field K]

/-- The coefficient `a` of `FindOptimalImagePoints` (vioTriangulate.cpp, line 44). -/
def coefficientA (ematrix : Matrix (Fin 3) (Fin 3) K) (point1 point2 : Fin 2 → K) : K :=
  let point1_homog := homogeneous point1
  let point2_homog := homogeneous point2
  let e_submatrix := topLeftCorner ematrix
  let epipolar_line1 := (s_matrix * ematrix).mulVec point2_homog
  let epipolar_line2 := (s_matrix * ematrix.transpose).mulVec point1_homog
  dotProduct epipolar_line1 (e_submatrix.mulVec epipolar_line2)

/-- The coefficient `b` of `FindOptimalImagePoints` (vioTriangulate.cpp, lines 45-46):
half the sum of the squared norms of the two epipolar lines. -/
def coefficientB (ematrix : Matrix (Fin 3) (Fin 3) K) (point1 point2 : Fin 2 → K) : K :=
  let point1_homog := homogeneous point1
  let point2_homog := homogeneous point2
  let epipolar_line1 := (s_matrix * ematrix).mulVec point2_homog
  let epipolar_line2 := (s_matrix * ematrix.transpose).mulVec point1_homog
  (squaredNorm epipolar_line1 + squaredNorm epipolar_line2) / 2

/-- The coefficient `c` of `FindOptimalImagePoints` (vioTriangulate.cpp, line 47): the
epipolar residual of the input points. -/
def coefficientC (ematrix : Matrix (Fin 3) (Fin 3) K) (point1 point2 : Fin 2 → K) : K :=
  dotProduct (homogeneous point1) (ematrix.mulVec (homogeneous point2))

/-- The discriminant `b * b - a * c` whose square root line 49 of
`FindOptimalImagePoints` takes. -/
def discriminant (ematrix : Matrix (Fin 3) (Fin 3) K) (point1 point2 : Fin 2 → K) : K :=
  coefficientB ematrix point1 point2 * coefficientB ematrix point1 point2
    - coefficientA ematrix point1 point2 * coefficientC ematrix point1 point2

/-- The way a call of `FindOptimalImagePoints` ends.  The function returns `void`, and
its body (vioTriangulate.cpp, lines 30-61) has no `throw`, no assertion and no test of
`b * b - a * c`: every call completes and writes the two points. -/
def FindOptimalImagePointsOutcome (sqrt : K → K) (ematrix : Matrix (Fin 3) (Fin 3) K)
    (point1 point2 : Fin 2 → K) : Except VIOError ((Fin 2 → K) × (Fin 2 → K)) :=
  Except.ok (FindOptimalImagePoints sqrt ematrix point1 point2)

end Coefficients

/-- A matrix with the epipolar form `x1 * x2 + 1`, for which the points `(1, 0)` and
`(1, 0)` give a negative discriminant. -/
def planarForm (K : Type) [Field K] : Matrix (Fin 3) (Fin 3) K :=
  !![1, 0, 0; 0, 0, 0; 0, 0, 1]

section Histories

variable (K : Type) [Field K]

/-- A history of one frame with a keyframe record that points at it. -/
def shortHistory : State K KeyFrame :=
  { frameBuffer := [axisLastFrame K 10]
    keyFrames := [{ frame := 0 }]
    active3DFeatures := [] }

/-- The history `axisHistory` after `updateKeyFrameInfo` has created the record of
keyframe 0, which points at frame 0, and a third frame has been appended. -/
def appendedHistory (d t : K) : State K KeyFrame :=
  { frameBuffer := [axisLastFrame K d, axisCurrentFrame K t 0, axisCurrentFrame K (t + t) 0]
    keyFrames := [{ frame := 0 }]
    active3DFeatures := [] }

/-- The concrete history `axisScenario` with the depth `d2` in the matched feature of
the current frame. -/
def axisScenarioWith (d t d2 : K) (counter : Int) : State K (KeyFrameInfo K) :=
  { frameBuffer := [axisLastFrame K d, axisCurrentFrame K t d2]
    keyFrames := [axisKeyFrame K counter]
    active3DFeatures := [] }

/-- An extrinsic that turns the camera by half a turn about its first axis:
`tf::Transform(tf::Quaternion(1, 0, 0, 0), tf::Vector3(0, 0, 0))`. -/
def flippedExtrinsic : Transform K :=
  Transform.ofQuaternion ⟨1, 0, 0, 0⟩ ![0, 0, 0]

end Histories

/-! ## Theorems -/

section Lemmas

variable {K : Type} [LinearOrderedField K]

/-- The design matrix of a noise-free correspondence annihilates the point that
was projected. -/
theorem design_matrix_mulVec_eq_zero {F : Type} [Field F] (P1 P2 : Matrix (Fin 3) (Fin 4) F)
    (X : Fin 4 → F) (h1 : P1.mulVec X 2 ≠ 0) (h2 : P2.mulVec X 2 ≠ 0) :
    (design_matrix P1 P2 (hnormalized (P1.mulVec X)) (hnormalized (P2.mulVec X))).mulVec X
      = 0 := by
  funext i
  fin_cases i <;>
  · simp only [design_matrix, hnormalized, Matrix.mulVec, Matrix.dotProduct, Fin.sum_univ_four,
      Matrix.of_apply, Matrix.cons_val_zero, Matrix.cons_val_one, Matrix.cons_val_two,
      Matrix.cons_val_three, Matrix.head_cons, Matrix.tail_cons, Pi.sub_apply, Pi.smul_apply,
      smul_eq_mul, Pi.zero_apply, Fin.zero_eta, Fin.mk_one, Fin.reduceFinMk]
    simp only [Matrix.mulVec, Matrix.dotProduct, Fin.sum_univ_four] at h1 h2
    field_simp
    ring

/-- In a singular value decomposition of a matrix with a non-trivial kernel, the
last row of `Vt` (the last column of `V`) lies in the kernel. -/
theorem svd_last_row_mem_kernel {n : ℕ} (A U : Matrix (Fin (n + 1)) (Fin (n + 1)) K)
    (w : Fin (n + 1) → K) (Vt : Matrix (Fin (n + 1)) (Fin (n + 1)) K) (h : IsSVD A U w Vt)
    (X : Fin (n + 1) → K) (hX : X ≠ 0) (hAX : A.mulVec X = 0) :
    A.mulVec (fun i => Vt (Fin.last n) i) = 0 := by
  obtain ⟨hU, hV, hnn, hmono, hA⟩ := h
  have hV2 : Vt.transpose * Vt = 1 := Matrix.mul_eq_one_comm.mp hV
  have hy : Vt.mulVec X ≠ 0 := by
    intro h0
    apply hX
    have h3 := congrArg (Vt.transpose.mulVec) h0
    rw [Matrix.mulVec_mulVec, hV2, Matrix.one_mulVec, Matrix.mulVec_zero] at h3
    exact h3
  have hD : (Matrix.diagonal w).mulVec (Vt.mulVec X) = 0 := by
    have h3 := congrArg (U.transpose.mulVec) hAX
    rw [hA, Matrix.mulVec_zero, ← Matrix.mulVec_mulVec, ← Matrix.mulVec_mulVec,
      Matrix.mulVec_mulVec, hU, Matrix.one_mulVec] at h3
    exact h3
  obtain ⟨i, hi⟩ : ∃ i, Vt.mulVec X i ≠ 0 := by
    by_contra hne
    push_neg at hne
    exact hy (funext hne)
  have hwi : w i = 0 := by
    have h3 := congrFun hD i
    rw [Matrix.mulVec_diagonal] at h3
    simpa [hi] using h3
  have hlast : w (Fin.last n) = 0 :=
    le_antisymm (hwi ▸ hmono i (Fin.last n) (Fin.le_last i)) (hnn _)
  have hcol : Vt.mulVec (fun i => Vt (Fin.last n) i) = Pi.single (Fin.last n) 1 := by
    funext j
    have h3 := congrFun (congrFun hV j) (Fin.last n)
    simp only [Matrix.mul_apply, Matrix.transpose_apply, Matrix.one_apply] at h3
    simp only [Matrix.mulVec, Matrix.dotProduct, Pi.single_apply]
    rw [h3]
  rw [hA, ← Matrix.mulVec_mulVec, hcol, ← Matrix.mulVec_mulVec]
  have h4 : (Matrix.diagonal w).mulVec (Pi.single (Fin.last n) 1) = 0 := by
    funext j
    rw [Matrix.mulVec_diagonal]
    by_cases hj : j = Fin.last n
    · subst hj
      simp [hlast]
    · simp [Pi.single_apply, hj]
  rw [h4, Matrix.mulVec_zero]

/-- The last row of `Vt` in a singular value decomposition is a unit vector. -/
theorem svd_last_row_unit {n : ℕ} (A U : Matrix (Fin (n + 1)) (Fin (n + 1)) K)
    (w : Fin (n + 1) → K) (Vt : Matrix (Fin (n + 1)) (Fin (n + 1)) K) (h : IsSVD A U w Vt) :
    dotProduct (fun i => Vt (Fin.last n) i) (fun i => Vt (Fin.last n) i) = 1 := by
  have h3 := congrFun (congrFun h.2.1 (Fin.last n)) (Fin.last n)
  simpa [Matrix.mul_apply, Matrix.dotProduct] using h3

/-- The kernel of a 4x4 matrix of rank 3 is the line through any of its non-zero
elements. -/
theorem kernel_eq_line_of_rank_three (A : Matrix (Fin 4) (Fin 4) K) (hr : A.rank = 3)
    (X v : Fin 4 → K) (hX : X ≠ 0) (hAX : A.mulVec X = 0) (hAv : A.mulVec v = 0) :
    ∃ k : K, v = k • X := by
  have hrn := LinearMap.finrank_range_add_finrank_ker (Matrix.mulVecLin A)
  have hk : Module.finrank K (LinearMap.ker (Matrix.mulVecLin A)) = 1 := by
    have h4 : Module.finrank K (Fin 4 → K) = 4 := by simp
    have h3 : Module.finrank K (LinearMap.range (Matrix.mulVecLin A)) = 3 := hr
    omega
  have hXm : X ∈ LinearMap.ker (Matrix.mulVecLin A) := by simpa using hAX
  have hvm : v ∈ LinearMap.ker (Matrix.mulVecLin A) := by simpa using hAv
  have hne : (⟨X, hXm⟩ : LinearMap.ker (Matrix.mulVecLin A)) ≠ 0 := by
    intro h
    exact hX (congrArg Subtype.val h)
  obtain ⟨c, hc⟩ := (finrank_eq_one_iff_of_nonzero' _ hne).mp hk ⟨v, hvm⟩
  exact ⟨c, (congrArg Subtype.val hc).symm⟩

/-- The rank of a matrix is the number of non-zero singular values of any of its
singular value decompositions. -/
theorem rank_eq_card_of_isSVD {n : ℕ} (A U : Matrix (Fin n) (Fin n) K) (w : Fin n → K)
    (Vt : Matrix (Fin n) (Fin n) K) (h : IsSVD A U w Vt) :
    A.rank = Fintype.card { i // w i ≠ 0 } := by
  obtain ⟨hU, hV, -, -, hA⟩ := h
  have hUdet : IsUnit U.det := Matrix.isUnit_det_of_left_inverse hU
  have hVdet : IsUnit Vt.det := Matrix.isUnit_det_of_right_inverse hV
  rw [hA, Matrix.rank_mul_eq_left_of_isUnit_det Vt _ hVdet,
    Matrix.rank_mul_eq_right_of_isUnit_det U _ hUdet, Matrix.rank_diagonal]

end Lemmas

/-- The design matrix of the concrete configuration is `dltDesign`. -/
theorem dlt_design_matrix_eq :
    design_matrix (dltPose1 ℝ) (dltPose2 ℝ)
        (hnormalized ((dltPose1 ℝ).mulVec (dltPoint ℝ)))
        (hnormalized ((dltPose2 ℝ).mulVec (dltPoint ℝ)))
      = dltDesign ℝ := by
  ext i j
  fin_cases i <;> fin_cases j <;>
    simp [design_matrix, dltPose1, dltPose2, dltPoint, dltDesign, hnormalized, Matrix.mulVec,
      Matrix.dotProduct, Fin.sum_univ_succ]

/-- The matrix `dltU` is orthogonal. -/
theorem dltU_orthogonal : (dltU ℝ).transpose * dltU ℝ = 1 := by
  ext i j
  simp only [Matrix.mul_apply, Matrix.transpose_apply, Fin.sum_univ_four, Matrix.one_apply,
    dltU]
  fin_cases i <;> fin_cases j <;> simp [Matrix.vecHead, Matrix.vecTail] <;> norm_num

/-- The matrix `dltV` is orthogonal. -/
theorem dltV_orthogonal : (dltV ℝ).transpose * (dltV ℝ).transpose.transpose = 1 := by
  ext i j
  simp only [Matrix.mul_apply, Matrix.transpose_apply, Fin.sum_univ_four, Matrix.one_apply,
    dltV]
  fin_cases i <;> fin_cases j <;> simp [Matrix.vecHead, Matrix.vecTail]

/-- The factors `dltU`, `dltW`, `dltV` multiply to `dltDesign`. -/
theorem dlt_factorisation :
    dltDesign ℝ = dltU ℝ * Matrix.diagonal (dltW ℝ) * (dltV ℝ).transpose := by
  ext i j
  simp only [Matrix.mul_apply, Matrix.transpose_apply, Fin.sum_univ_four,
    Matrix.diagonal_apply, dltU, dltV, dltW, dltDesign]
  fin_cases i <;> fin_cases j <;> simp [Matrix.vecHead, Matrix.vecTail]

/-- The factors `dltU`, `dltW`, `dltV` are a singular value decomposition of
`dltDesign`. -/
theorem dlt_isSVD : IsSVD (dltDesign ℝ) (dltU ℝ) (dltW ℝ) (dltV ℝ).transpose := by
  refine ⟨dltU_orthogonal, dltV_orthogonal, ?_, ?_, dlt_factorisation⟩
  · intro i
    fin_cases i <;> simp [dltW]
  · intro i j hij
    fin_cases i <;> fin_cases j <;> simp [dltW] at hij ⊢

/-- The matrix `dltDesign` has rank 3. -/
theorem dltDesign_rank : (dltDesign ℝ).rank = 3 := by
  rw [rank_eq_card_of_isSVD _ _ _ _ dlt_isSVD, Fintype.card_subtype]
  have hf : (Finset.univ.filter fun i : Fin 4 => dltW ℝ i ≠ 0) = {0, 1, 2} := by
    ext i
    fin_cases i <;> simp [dltW]
  rw [hf]
  rfl


/-! ### Checked access and `size_t` arithmetic -/

/-- The index 0 converts to itself. -/
theorem toSizeT_zero : toSizeT 0 = 0 := by
  unfold toSizeT
  norm_num

/-- Without wrap-around, the `size_t` difference is the difference. -/
theorem sizeSub_of_le (n k : Nat) (hk : k ≤ n) (hn : n < 2 ^ 64) : sizeSub n k = n - k := by
  unfold sizeSub
  omega

/-- The checked access succeeds exactly on the indices of the list. -/
theorem vectorAt_eq_ok_iff {α : Type} (v : List α) (i : Nat) (a : α) :
    vectorAt v i = Except.ok a ↔ v[i]? = some a := by
  unfold vectorAt
  cases h : v[i]? with
  | none => simp
  | some b => simp

/-- The checked access at an index below the size. -/
theorem vectorAt_of_lt {α : Type} (v : List α) (i : Nat) (h : i < v.length) :
    vectorAt v i = Except.ok (v.get ⟨i, h⟩) := by
  rw [vectorAt_eq_ok_iff]
  simp [List.getElem?_eq_getElem h]

/-- The checked access at an index not below the size throws. -/
theorem vectorAt_error_of_le {α : Type} (v : List α) (i : Nat) (h : v.length ≤ i) :
    vectorAt v i = Except.error VIOError.outOfRange := by
  unfold vectorAt
  rw [List.getElem?_eq_none h]


/-! ### Sorting -/

/-- Insertion adds the element and keeps the others. -/
theorem sortInsert_perm {α : Type} (comp : α → α → Bool) (a : α) (l : List α) :
    List.Perm (sortInsert comp a l) (a :: l) := by
  induction l with
  | nil => exact List.Perm.refl _
  | cons b l ih =>
    unfold sortInsert
    split
    · exact ((List.Perm.cons b ih).trans (List.Perm.swap a b l))
    · exact List.Perm.refl _

/-- Sorting permutes the list. -/
theorem stdSort_perm {α : Type} (comp : α → α → Bool) (l : List α) :
    List.Perm (stdSort comp l) l := by
  induction l with
  | nil => exact List.Perm.refl _
  | cons a l ih =>
    unfold stdSort
    exact (sortInsert_perm comp a _).trans (List.Perm.cons a ih)

/-- Insertion by `less_than_key` keeps a list ordered by variance. -/
theorem sortInsert_sorted {K : Type} [LinearOrder K] (a : VIOFeature3D K)
    (l : List (VIOFeature3D K))
    (h : l.Pairwise (fun f g => f.variance ≤ g.variance)) :
    (sortInsert less_than_key a l).Pairwise (fun f g => f.variance ≤ g.variance) := by
  induction l with
  | nil => simp [sortInsert]
  | cons b l ih =>
    have hb := List.pairwise_cons.mp h
    unfold sortInsert
    split
    · rename_i hlt
      have hlt2 : b.variance < a.variance := by simpa [less_than_key] using hlt
      refine List.pairwise_cons.mpr ⟨?_, ih hb.2⟩
      intro c hc
      rcases List.mem_cons.mp ((sortInsert_perm less_than_key a l).subset hc) with h1 | h1
      · rw [h1]
        exact hlt2.le
      · exact hb.1 c h1
    · rename_i hlt
      have hge : a.variance ≤ b.variance := by
        have : ¬ b.variance < a.variance := by simpa [less_than_key] using hlt
        exact not_lt.mp this
      refine List.pairwise_cons.mpr ⟨?_, h⟩
      intro c hc
      rcases List.mem_cons.mp hc with h1 | h1
      · rw [h1]
        exact hge
      · exact hge.trans (hb.1 c h1)

/-- Sorting by `less_than_key` orders the list by variance. -/
theorem stdSort_sorted {K : Type} [LinearOrder K] (l : List (VIOFeature3D K)) :
    (stdSort less_than_key l).Pairwise (fun f g => f.variance ≤ g.variance) := by
  induction l with
  | nil => simp [stdSort]
  | cons a l ih =>
    unfold stdSort
    exact sortInsert_sorted a _ ih


/-! ### Depth propagation -/

section Pass
variable {K : Type} [Field K]

/-- The state that a pass leaves once it has passed the assertion of line 154. -/
theorem updateFeatureDepths_state (lookup : Option (Transform K)) (u : Transform K)
    (x : VIOState K) (v : K) (s : State K (KeyFrameInfo K)) (cf lf kfFrame : Frame K)
    (kf : KeyFrameInfo K)
    (hcf : currentFrame s = Except.ok cf) (hlf : lastFrame s = Except.ok lf)
    (hkf : vectorAt s.keyFrames 0 = Except.ok kf)
    (hkff : vectorAt s.frameBuffer (toSizeT kf.frameBufferIndex) = Except.ok kfFrame)
    (hnz : kfFrame.nextFeatureID ≠ 0) :
    (updateFeatureDepths lookup u x v s).1
      = { frameBuffer := s.frameBuffer.set (currentFrameIndex s)
            { cf with features := (propagateDepths
                ((cameraTransformFromState lf.state (lookupBase2cam lookup u)).inverse.mul
                  (cameraTransformFromState x (lookupBase2cam lookup u)))
                lf.features cf.features).1 }
          keyFrames := s.keyFrames.set 0 { kf with nextFeatureID := kfFrame.nextFeatureID }
          active3DFeatures := s.active3DFeatures } := by
  unfold updateFeatureDepths
  simp only [hcf, hlf, hkf, hkff, if_neg hnz]

/-- The error of a pass whose first loop ends without error is that of its second loop. -/
theorem updateFeatureDepths_error (lookup : Option (Transform K)) (u : Transform K)
    (x : VIOState K) (v : K) (s : State K (KeyFrameInfo K)) (cf lf kfFrame : Frame K)
    (kf : KeyFrameInfo K)
    (hcf : currentFrame s = Except.ok cf) (hlf : lastFrame s = Except.ok lf)
    (hkf : vectorAt s.keyFrames 0 = Except.ok kf)
    (hkff : vectorAt s.frameBuffer (toSizeT kf.frameBufferIndex) = Except.ok kfFrame)
    (hnz : kfFrame.nextFeatureID ≠ 0)
    (hloop : (propagateDepths
        ((cameraTransformFromState lf.state (lookupBase2cam lookup u)).inverse.mul
          (cameraTransformFromState x (lookupBase2cam lookup u)))
        lf.features cf.features).2 = none) :
    (updateFeatureDepths lookup u x v s).2
      = triangulateLoop kf.matchedFeatures (propagateDepths
          ((cameraTransformFromState lf.state (lookupBase2cam lookup u)).inverse.mul
            (cameraTransformFromState x (lookupBase2cam lookup u)))
          lf.features cf.features).1 0 kf.currentFrameIndexes := by
  unfold updateFeatureDepths
  simp only [hcf, hlf, hkf, hkff, if_neg hnz, hloop]

/-- A pass that ends without error ran through every step. -/
theorem updateFeatureDepths_completed (lookup : Option (Transform K)) (u : Transform K)
    (x : VIOState K) (v : K) (s : State K (KeyFrameInfo K))
    (hdone : (updateFeatureDepths lookup u x v s).2 = none) :
    ∃ cf lf kf kfFrame, currentFrame s = Except.ok cf ∧ lastFrame s = Except.ok lf
      ∧ vectorAt s.keyFrames 0 = Except.ok kf
      ∧ vectorAt s.frameBuffer (toSizeT kf.frameBufferIndex) = Except.ok kfFrame
      ∧ kfFrame.nextFeatureID ≠ 0
      ∧ (propagateDepths
          ((cameraTransformFromState lf.state (lookupBase2cam lookup u)).inverse.mul
            (cameraTransformFromState x (lookupBase2cam lookup u)))
          lf.features cf.features).2 = none := by
  unfold updateFeatureDepths at hdone
  cases hcf : currentFrame s with
  | error e => simp [hcf] at hdone
  | ok cf =>
    cases hlf : lastFrame s with
    | error e => simp [hcf, hlf] at hdone
    | ok lf =>
      cases hkf : vectorAt s.keyFrames 0 with
      | error e => simp [hcf, hlf, hkf] at hdone
      | ok kf =>
        cases hkff : vectorAt s.frameBuffer (toSizeT kf.frameBufferIndex) with
        | error e => simp [hcf, hlf, hkf, hkff] at hdone
        | ok kfFrame =>
          simp only [hcf, hlf, hkf, hkff] at hdone
          by_cases hnz : kfFrame.nextFeatureID = 0
          · simp [hnz] at hdone
          · simp only [if_neg hnz] at hdone
            refine ⟨cf, lf, kf, kfFrame, rfl, rfl, rfl, hkff, hnz, ?_⟩
            cases hl : (propagateDepths
              ((cameraTransformFromState lf.state (lookupBase2cam lookup u)).inverse.mul
                (cameraTransformFromState x (lookupBase2cam lookup u)))
              lf.features cf.features).2 with
            | none => rfl
            | some err => simp [hl] at hdone

/-- The first loop keeps the number of features. -/
theorem propagateDepths_length (t : Transform K) (lf l : List (VIOFeature2D K)) :
    (propagateDepths t lf l).1.length = l.length := by
  induction l with
  | nil => rfl
  | cons e es ih =>
    unfold propagateDepths
    cases h : propagateFeatureDepth t lf e with
    | error err => rfl
    | ok e1 => simp [ih]

/-- The first loop leaves every unmatched feature as it is, whether it ends early or
not. -/
theorem propagateDepths_unmatched (t : Transform K) (lf l : List (VIOFeature2D K)) (j : Nat)
    (e : VIOFeature2D K) (he : l[j]? = some e) (hm : e.matched = false) :
    (propagateDepths t lf l).1[j]? = some e := by
  induction l generalizing j with
  | nil => simp at he
  | cons a es ih =>
    unfold propagateDepths
    cases h : propagateFeatureDepth t lf a with
    | error err => exact he
    | ok a1 =>
      cases j with
      | zero =>
        have ha : a = e := by simpa using he
        subst ha
        have h1 : propagateFeatureDepth t lf a = Except.ok a := by
          simp [propagateFeatureDepth, hm]
        rw [h1] at h
        cases h
        simp
      | succ j =>
        have he2 : es[j]? = some e := by simpa using he
        simpa using ih j he2

/-- When the first loop ends without error, every feature is the result of its
iteration. -/
theorem propagateDepths_completed (t : Transform K) (lf l : List (VIOFeature2D K))
    (hdone : (propagateDepths t lf l).2 = none) (j : Nat) (e : VIOFeature2D K)
    (he : l[j]? = some e) :
    ∃ e1, propagateFeatureDepth t lf e = Except.ok e1 ∧ (propagateDepths t lf l).1[j]? = some e1 := by
  induction l generalizing j with
  | nil => simp at he
  | cons a es ih =>
    unfold propagateDepths at hdone ⊢
    cases h : propagateFeatureDepth t lf a with
    | error err => simp [h] at hdone
    | ok a1 =>
      simp only [h] at hdone ⊢
      cases j with
      | zero =>
        have ha : a = e := by simpa using he
        subst ha
        exact ⟨a1, h, by simp⟩
      | succ j =>
        have he2 : es[j]? = some e := by simpa using he
        obtain ⟨e1, h1, h2⟩ := ih hdone j he2
        exact ⟨e1, h1, by simpa using h2⟩

/-- The iteration of the first loop for a matched feature whose match exists and passes
the assertion. -/
theorem propagateFeatureDepth_matched (t : Transform K) (lf : List (VIOFeature2D K))
    (e last_ft e1 : VIOFeature2D K) (hm : e.matched = true)
    (hlast : lf[toSizeT e.matchedIndex]? = some last_ft)
    (hok : propagateFeatureDepth t lf e = Except.ok e1) :
    last_ft.featureID = e.matchedID
      ∧ e1 = e.setFeatureDepth
          (t.apply (last_ft.depth • ![last_ft.undistorted.x, last_ft.undistorted.y, 1]) 2) := by
  have hat : vectorAt lf (toSizeT e.matchedIndex) = Except.ok last_ft :=
    (vectorAt_eq_ok_iff _ _ _).mpr hlast
  unfold propagateFeatureDepth at hok
  simp only [hm, if_true, hat] at hok
  by_cases hid : last_ft.featureID = e.matchedID
  · simp only [if_pos hid] at hok
    cases hok
    exact ⟨hid, rfl⟩
  · simp [if_neg hid] at hok

/-- Writing the current frame back does not move it. -/
theorem currentFrame_set {K KF : Type} (frameBuffer : List (Frame K)) (keyFrames keyFrames2 : List KF)
    (a a2 : List (VIOFeature3D K)) (cf cf2 : Frame K)
    (hcf : currentFrame (⟨frameBuffer, keyFrames, a⟩ : State K KF) = Except.ok cf) :
    currentFrame (⟨frameBuffer.set (currentFrameIndex (⟨frameBuffer, keyFrames, a⟩ : State K KF))
      cf2, keyFrames2, a2⟩ : State K KF) = Except.ok cf2 := by
  unfold currentFrame at hcf ⊢
  have hi : currentFrameIndex (⟨frameBuffer.set
      (currentFrameIndex (⟨frameBuffer, keyFrames, a⟩ : State K KF)) cf2, keyFrames2, a2⟩ :
      State K KF) = currentFrameIndex (⟨frameBuffer, keyFrames, a⟩ : State K KF) := by
    simp [currentFrameIndex]
  rw [hi]
  rw [vectorAt_eq_ok_iff] at hcf ⊢
  have hlt : currentFrameIndex (⟨frameBuffer, keyFrames, a⟩ : State K KF) < frameBuffer.length := by
    by_contra hge
    rw [List.getElem?_eq_none (not_lt.mp hge)] at hcf
    cases hcf
  simp [List.getElem?_set, hlt]


/-- Replacing the keyframe records does not move the current frame. -/
theorem currentFrame_keyFrames {K KF : Type} (frameBuffer : List (Frame K))
    (keyFrames keyFrames2 : List KF) (a a2 : List (VIOFeature3D K)) :
    currentFrame (⟨frameBuffer, keyFrames2, a2⟩ : State K KF)
      = currentFrame (⟨frameBuffer, keyFrames, a⟩ : State K KF) := rfl


/-- The rotation matrix of the identity orientation is the identity. -/
theorem setRotation_identity : setRotation (Quaternion.identity : Quaternion K) = 1 := by
  ext i j
  fin_cases i <;> fin_cases j <;>
    simp [setRotation, Quaternion.identity, Quaternion.length2, Matrix.one_apply,
      Matrix.vecHead, Matrix.vecTail]

/-- The camera transform of an on-axis state under the identity extrinsic. -/
theorem cameraTransformFromState_axis (z : K) :
    cameraTransformFromState (axisState K z) Transform.identity = ⟨1, ![0, 0, z]⟩ := by
  simp [cameraTransformFromState, axisState, Transform.ofQuaternion, Transform.mul,
    Transform.apply, Transform.identity, setRotation_identity]

/-- The transform `last2current` between two on-axis states under the identity
extrinsic: the translation by the difference of the heights. -/
theorem last2current_axis (a b : K) :
    (cameraTransformFromState (axisState K a) Transform.identity).inverse.mul
      (cameraTransformFromState (axisState K b) Transform.identity) = ⟨1, ![0, 0, b - a]⟩ := by
  rw [cameraTransformFromState_axis, cameraTransformFromState_axis]
  simp only [Transform.inverse, Transform.mul, Transform.apply, Matrix.transpose_one,
    Matrix.one_mulVec, Matrix.one_mul, Transform.mk.injEq, true_and]
  ext i
  fin_cases i <;> simp
  ring

/-- The current frame of the concrete history. -/
theorem axis_currentFrame (d t : K) (counter : Int) :
    currentFrame (axisScenario K d t counter) = Except.ok (axisCurrentFrame K t 0) := by
  have hi : currentFrameIndex (axisScenario K d t counter) = 1 :=
    sizeSub_of_le 2 1 (by norm_num) (by norm_num)
  rw [currentFrame, hi]
  rfl

/-- The last frame of the concrete history. -/
theorem axis_lastFrame (d t : K) (counter : Int) :
    lastFrame (axisScenario K d t counter) = Except.ok (axisLastFrame K d) := by
  have hi : lastFrameIndex (axisScenario K d t counter) = 0 :=
    sizeSub_of_le 2 2 (by norm_num) (by norm_num)
  rw [lastFrame, hi]
  rfl

/-- The first loop on the concrete history: the matched feature gets the depth
`d + t`, the unmatched one keeps its depth. -/
theorem axis_propagateDepths (d t : K) :
    propagateDepths (⟨1, ![0, 0, t - 0]⟩ : Transform K) (axisLastFrame K d).features
        (axisCurrentFrame K t 0).features
      = ((axisCurrentFrame K t (d + t)).features, none) := by
  have hl : vectorAt (axisLastFrame K d).features (toSizeT (axisFeature K 2 true 0 1 0).matchedIndex)
      = Except.ok (axisFeature K 1 false 0 0 d) := by
    show vectorAt _ (toSizeT 0) = _
    rw [toSizeT_zero]
    rfl
  have e2 : (axisFeature K 2 true 0 1 0).matched = true := rfl
  have e3 : (axisFeature K 3 false 0 0 4).matched = false := rfl
  show propagateDepths _ _ [axisFeature K 2 true 0 1 0, axisFeature K 3 false 0 0 4] = _
  simp only [propagateDepths, propagateFeatureDepth, e2, e3, hl, if_true]
  simp [axisFeature, axisCurrentFrame, VIOFeature2D.setFeatureDepth, Transform.apply,
    Matrix.mulVec, Matrix.dotProduct, Fin.sum_univ_succ]

/-- The pass on the concrete history, with the identity extrinsic and the state moved
by `t` along the optical axis: it completes, the matched feature of the current frame
gets the depth `d + t`, and the stored counter of keyframe 0 becomes 7, whatever it
was. -/
theorem axis_updateFeatureDepths (d t v : K) (counter : Int) :
    updateFeatureDepths (some Transform.identity) Transform.identity (axisState K t) v
        (axisScenario K d t counter)
      = ({ frameBuffer := [axisLastFrame K d, axisCurrentFrame K t (d + t)]
           keyFrames := [axisKeyFrame K 7]
           active3DFeatures := [] }, none) := by
  have hcf := axis_currentFrame d t counter
  have hlf := axis_lastFrame d t counter
  have hkf : vectorAt (axisScenario K d t counter).keyFrames 0
      = Except.ok (axisKeyFrame K counter) := rfl
  have hkff : vectorAt (axisScenario K d t counter).frameBuffer
      (toSizeT (axisKeyFrame K counter).frameBufferIndex) = Except.ok (axisLastFrame K d) := by
    show vectorAt _ (toSizeT 0) = _
    rw [toSizeT_zero]
    rfl
  have hnz : (axisLastFrame K d).nextFeatureID ≠ 0 := by
    show (7 : Int) ≠ 0
    norm_num
  have hb : lookupBase2cam (some (Transform.identity : Transform K)) Transform.identity
      = Transform.identity := rfl
  have hl2c : (cameraTransformFromState (axisLastFrame K d).state Transform.identity).inverse.mul
      (cameraTransformFromState (axisState K t) Transform.identity) = ⟨1, ![0, 0, t - 0]⟩ :=
    last2current_axis 0 t
  have hi : currentFrameIndex (axisScenario K d t counter) = 1 :=
    sizeSub_of_le 2 1 (by norm_num) (by norm_num)
  have h1 := updateFeatureDepths_state (some Transform.identity) Transform.identity
    (axisState K t) v _ _ _ _ _ hcf hlf hkf hkff hnz
  have h2 := updateFeatureDepths_error (some Transform.identity) Transform.identity
    (axisState K t) v _ _ _ _ _ hcf hlf hkf hkff hnz
  rw [hb, hl2c, axis_propagateDepths] at h2
  rw [hb, hl2c, axis_propagateDepths, hi] at h1
  refine Prod.ext ?_ ?_
  · rw [h1]
    rfl
  · rw [h2 rfl]
    rfl


/-- The error that ends a pass, if any, does not depend on the feature counter stored
in keyframe 0. -/
theorem updateFeatureDepths_counter_irrelevant (lookup : Option (Transform K))
    (u : Transform K) (x : VIOState K) (v : K) (fb : List (Frame K)) (kf : KeyFrameInfo K)
    (kfs : List (KeyFrameInfo K)) (a : List (VIOFeature3D K)) (counter : Int) :
    (updateFeatureDepths lookup u x v ⟨fb, { kf with nextFeatureID := counter } :: kfs, a⟩).2
      = (updateFeatureDepths lookup u x v ⟨fb, kf :: kfs, a⟩).2 := by
  have hk1 : vectorAt ({ kf with nextFeatureID := counter } :: kfs) 0
      = Except.ok { kf with nextFeatureID := counter } := by simp [vectorAt]
  have hk2 : vectorAt (kf :: kfs) 0 = Except.ok kf := by simp [vectorAt]
  have hc : currentFrame (⟨fb, { kf with nextFeatureID := counter } :: kfs, a⟩ :
      State K (KeyFrameInfo K)) = currentFrame (⟨fb, kf :: kfs, a⟩ : State K (KeyFrameInfo K)) :=
    rfl
  have hl : lastFrame (⟨fb, { kf with nextFeatureID := counter } :: kfs, a⟩ :
      State K (KeyFrameInfo K)) = lastFrame (⟨fb, kf :: kfs, a⟩ : State K (KeyFrameInfo K)) :=
    rfl
  unfold updateFeatureDepths
  simp only [hk1, hk2, hc, hl]
  cases currentFrame (⟨fb, kf :: kfs, a⟩ : State K (KeyFrameInfo K)) with
  | error err => rfl
  | ok cf =>
    cases lastFrame (⟨fb, kf :: kfs, a⟩ : State K (KeyFrameInfo K)) with
    | error err => rfl
    | ok lf =>
      cases vectorAt fb (toSizeT kf.frameBufferIndex) with
      | error err => rfl
      | ok kfFrame =>
        by_cases hnz : kfFrame.nextFeatureID = 0
        · simp only [hnz, if_true]
        · simp only [if_neg hnz]

end Pass

/-! ### The claims -/

/-- Claim C1, evaluated at a failing input.  For the essential matrix of a
forward translation and the points `(1, 0)` and `(0, 3)` the discriminant
`b^2 - a*c` is `16`, every division is by a non-zero number, and the points
returned by `FindOptimalImagePoints` are `(7/25, -6/25)` and `(-2/25, 69/25)`,
whose epipolar residual is `-471/625`, not `0`. -/
theorem C1_FindOptimalImagePoints_residual_nonzero :
    FindOptimalImagePoints Real.sqrt (forwardEssential ℝ) ![1, 0] ![0, 3]
        = (![7/25, -6/25], ![-2/25, 69/25])
      ∧ epipolarResidual (forwardEssential ℝ) ![7/25, -6/25] ![-2/25, 69/25] = -471/625
      ∧ epipolarResidual (forwardEssential ℝ)
          (FindOptimalImagePoints Real.sqrt (forwardEssential ℝ) ![1, 0] ![0, 3]).1
          (FindOptimalImagePoints Real.sqrt (forwardEssential ℝ) ![1, 0] ![0, 3]).2 ≠ 0 := by
  have hs : Real.sqrt 16 = 4 := by
    rw [show (16 : ℝ) = 4 ^ 2 by norm_num]
    exact Real.sqrt_sq (by norm_num)
  have h1 : FindOptimalImagePoints Real.sqrt (forwardEssential ℝ) ![1, 0] ![0, 3]
        = (![7/25, -6/25], ![-2/25, 69/25]) := by
    simp [FindOptimalImagePoints, forwardEssential, homogeneous, hnormalized, squaredNorm,
      topLeftCorner, s_matrix, Matrix.mulVec, Matrix.dotProduct, Fin.sum_univ_succ,
      Matrix.mul_apply, Matrix.vecHead, Matrix.vecTail]
    norm_num [hs]
  have h2 : epipolarResidual (forwardEssential ℝ) ![7/25, -6/25] ![-2/25, 69/25]
      = -471/625 := by
    simp [epipolarResidual, forwardEssential, homogeneous, Matrix.mulVec, Matrix.dotProduct,
      Fin.sum_univ_succ, Matrix.vecHead, Matrix.vecTail]
    norm_num
  refine ⟨h1, h2, ?_⟩
  rw [h1, h2]
  norm_num

/-- Claim C2.  For all 3x4 matrices `P1`, `P2` and every homogeneous point `X`, the
matrix computed by `FundamentalMatrixFromProjectionMatrices P1 P2` satisfies the
epipolar constraint of the noise-free correspondence exactly:
`(P1 X)^T * F * (P2 X) = 0`. -/
theorem C2_fundamental_matrix_epipolar_constraint {K : Type} [Field K]
    (P1 P2 : Matrix (Fin 3) (Fin 4) K) (X : Fin 4 → K) :
    dotProduct (P1.mulVec X)
      ((FundamentalMatrixFromProjectionMatrices P1 P2).mulVec (P2.mulVec X)) = 0 := by
  have hF : ∀ r c, FundamentalMatrixFromProjectionMatrices P1 P2 r c
      = determinant (Matrix.of ![P2 (index1 c), P2 (index2 c), P1 (index1 r), P1 (index2 r)]) :=
    fun _ _ => rfl
  simp only [Matrix.mulVec, Matrix.dotProduct, Fin.sum_univ_three, Fin.sum_univ_four, hF,
    determinant, det3, index1, index2, Matrix.of_apply, Matrix.cons_val_zero,
    Matrix.cons_val_one, Matrix.cons_val_two, Matrix.head_cons, Matrix.tail_cons,
    Matrix.cons_val_three]
  ring

/-- Claim C3.  Let `X` be a homogeneous point whose projections by `P1` and `P2`
have non-zero third coordinate, let the image points be the de-homogenised
projections, and let the design matrix have rank 3.  For every singular value
decomposition of the design matrix that the library may return, `TriangulateDLT`
returns `true` and a non-zero multiple of `X`, namely `X / |X|` or `-X / |X|`. -/
theorem C3_TriangulateDLT_recovers_point
    (jacobiSvdMatrixV : Matrix (Fin 4) (Fin 4) ℝ → Matrix (Fin 4) (Fin 4) ℝ)
    (P1 P2 : Matrix (Fin 3) (Fin 4) ℝ) (X : Fin 4 → ℝ)
    (h1 : P1.mulVec X 2 ≠ 0) (h2 : P2.mulVec X 2 ≠ 0)
    (hrank : (design_matrix P1 P2 (hnormalized (P1.mulVec X))
      (hnormalized (P2.mulVec X))).rank = 3)
    (hsvd : ∃ U w, IsSVD
      (design_matrix P1 P2 (hnormalized (P1.mulVec X)) (hnormalized (P2.mulVec X))) U w
      (jacobiSvdMatrixV (design_matrix P1 P2 (hnormalized (P1.mulVec X))
        (hnormalized (P2.mulVec X)))).transpose) :
    (TriangulateDLT jacobiSvdMatrixV P1 P2 (hnormalized (P1.mulVec X))
        (hnormalized (P2.mulVec X))).1 = true
      ∧ (∃ k : ℝ, k ≠ 0 ∧
          (TriangulateDLT jacobiSvdMatrixV P1 P2 (hnormalized (P1.mulVec X))
            (hnormalized (P2.mulVec X))).2 = k • X)
      ∧ ((TriangulateDLT jacobiSvdMatrixV P1 P2 (hnormalized (P1.mulVec X))
            (hnormalized (P2.mulVec X))).2 = (Real.sqrt (dotProduct X X))⁻¹ • X
          ∨ (TriangulateDLT jacobiSvdMatrixV P1 P2 (hnormalized (P1.mulVec X))
            (hnormalized (P2.mulVec X))).2 = (-(Real.sqrt (dotProduct X X))⁻¹) • X) := by
  obtain ⟨U, w, hs⟩ := hsvd
  have hX : X ≠ 0 := by
    intro h0
    apply h1
    rw [h0, Matrix.mulVec_zero]
    rfl
  have hAX := design_matrix_mulVec_eq_zero P1 P2 X h1 h2
  have hAv := svd_last_row_mem_kernel _ U w _ hs X hX hAX
  have hunit := svd_last_row_unit _ U w _ hs
  obtain ⟨k, hk⟩ := kernel_eq_line_of_rank_three _ hrank X _ hX hAX hAv
  have hv : (TriangulateDLT jacobiSvdMatrixV P1 P2 (hnormalized (P1.mulVec X))
      (hnormalized (P2.mulVec X))).2 = k • X := by
    rw [← hk]
    rfl
  have hN : k * k * dotProduct X X = 1 := by
    rw [hk] at hunit
    rw [← hunit]
    simp only [Matrix.dotProduct_smul, Matrix.smul_dotProduct, smul_eq_mul]
    ring
  have hk0 : k ≠ 0 := by
    intro h0
    rw [h0] at hN
    simp at hN
  have hNpos : 0 < dotProduct X X := by
    have h3 : 0 < k * k := mul_self_pos.mpr hk0
    by_contra hle
    push_neg at hle
    have h4 : k * k * dotProduct X X ≤ 0 := mul_nonpos_of_nonneg_of_nonpos h3.le hle
    linarith
  have hspos : 0 < Real.sqrt (dotProduct X X) := Real.sqrt_pos.mpr hNpos
  have hsq : Real.sqrt (dotProduct X X) * Real.sqrt (dotProduct X X) = dotProduct X X :=
    Real.mul_self_sqrt hNpos.le
  have hks : (k * Real.sqrt (dotProduct X X)) * (k * Real.sqrt (dotProduct X X)) = 1 := by
    calc (k * Real.sqrt (dotProduct X X)) * (k * Real.sqrt (dotProduct X X))
        = k * k * (Real.sqrt (dotProduct X X) * Real.sqrt (dotProduct X X)) := by ring
      _ = 1 := by rw [hsq, hN]
  refine ⟨rfl, ⟨k, hk0, hv⟩, ?_⟩
  rcases mul_self_eq_one_iff.mp hks with h5 | h5
  · left
    rw [hv]
    congr 1
    field_simp
    linarith
  · right
    rw [hv]
    congr 1
    field_simp
    linarith

/-- The hypotheses of claim C3 hold for the cameras `dltPose1`, `dltPose2` and the
point `dltPoint = (0, 0, 0, 1)`, whose design matrix has the singular values
`5, 1, 1, 0`; the triangulated point is a non-zero multiple of `dltPoint`. -/
theorem C3_TriangulateDLT_recovers_point_witness :
    (dltPose1 ℝ).mulVec (dltPoint ℝ) 2 ≠ 0 ∧ (dltPose2 ℝ).mulVec (dltPoint ℝ) 2 ≠ 0
      ∧ (design_matrix (dltPose1 ℝ) (dltPose2 ℝ)
          (hnormalized ((dltPose1 ℝ).mulVec (dltPoint ℝ)))
          (hnormalized ((dltPose2 ℝ).mulVec (dltPoint ℝ)))).rank = 3
      ∧ ∃ k : ℝ, k ≠ 0 ∧
        (TriangulateDLT (fun _ => dltV ℝ) (dltPose1 ℝ) (dltPose2 ℝ)
          (hnormalized ((dltPose1 ℝ).mulVec (dltPoint ℝ)))
          (hnormalized ((dltPose2 ℝ).mulVec (dltPoint ℝ)))).2 = k • dltPoint ℝ :=
  have h1 : (dltPose1 ℝ).mulVec (dltPoint ℝ) 2 ≠ 0 := by
    simp [dltPose1, dltPoint, Matrix.mulVec, Matrix.dotProduct, Fin.sum_univ_succ]
  have h2 : (dltPose2 ℝ).mulVec (dltPoint ℝ) 2 ≠ 0 := by
    simp [dltPose2, dltPoint, Matrix.mulVec, Matrix.dotProduct, Fin.sum_univ_succ]
  have hrank : (design_matrix (dltPose1 ℝ) (dltPose2 ℝ)
      (hnormalized ((dltPose1 ℝ).mulVec (dltPoint ℝ)))
      (hnormalized ((dltPose2 ℝ).mulVec (dltPoint ℝ)))).rank = 3 := by
    rw [dlt_design_matrix_eq]
    exact dltDesign_rank
  ⟨h1, h2, hrank,
    (C3_TriangulateDLT_recovers_point (fun _ => dltV ℝ) (dltPose1 ℝ) (dltPose2 ℝ) (dltPoint ℝ)
      h1 h2 hrank ⟨dltU ℝ, dltW ℝ, by rw [dlt_design_matrix_eq]; exact dlt_isSVD⟩).2.1⟩

/-- Claim C4, evaluated.  With the identity extrinsic and identity orientations, the
state moved by `t` along the optical axis since the last frame, and a matched on-axis
feature of depth `d` in the last frame, the pass completes and the depth of the
feature in the current frame is `d + t`, not `d - t`: for `t = 1` and `d = 10` it
is `11`, not `9`. -/
theorem C4_axis_translation_depth :
    (∀ (K : Type) [Field K] (d t v : K),
      updateFeatureDepths (some Transform.identity) Transform.identity (axisState K t) v
          (axisScenario K d t 7)
        = ({ frameBuffer := [axisLastFrame K d, axisCurrentFrame K t (d + t)]
             keyFrames := [axisKeyFrame K 7]
             active3DFeatures := [] }, none))
      ∧ (updateFeatureDepths (some Transform.identity) Transform.identity (axisState ℚ 1) 0
          (axisScenario ℚ 10 1 7)).1.frameBuffer
          = [axisLastFrame ℚ 10, axisCurrentFrame ℚ 1 11]
      ∧ (axisCurrentFrame ℚ 1 11).features.map VIOFeature2D.depth = [11, 4]
      ∧ (axisCurrentFrame ℚ 1 0).features.map VIOFeature2D.matched = [true, false]
      ∧ (11 : ℚ) ≠ 9 := by
  refine ⟨fun K _ d t v => axis_updateFeatureDepths d t v 7, ?_, rfl, rfl, by norm_num⟩
  rw [axis_updateFeatureDepths]
  norm_num

/-- Claim C5.  After a completed pass of `updateFeatureDepths`, a feature `e` of the
current frame that is matched, with the feature `last_ft` of the last frame at its
match index, has the depth `z` of `(T_last^-1 * T_current)` applied to
`depth * (u.x, u.y, 1)` of `last_ft`, where `T_last` and `T_current` are
`cameraTransformFromState` of the state of the last frame and of `x` with the same
extrinsic; its other fields are unchanged, and the identity of `last_ft` is the
matched identity of `e`.  The value is the one in the final state, after the
keyframe loop. -/
theorem C5_matched_feature_depth {K : Type} [Field K] (lookup : Option (Transform K)) (u : Transform K)
    (x : VIOState K) (v : K) (s : State K (KeyFrameInfo K)) (cf lf : Frame K) (j : Nat)
    (e last_ft : VIOFeature2D K)
    (hdone : (updateFeatureDepths lookup u x v s).2 = none)
    (hcf : currentFrame s = Except.ok cf) (hlf : lastFrame s = Except.ok lf)
    (he : cf.features[j]? = some e) (hm : e.matched = true)
    (hlast : lf.features[toSizeT e.matchedIndex]? = some last_ft) :
    last_ft.featureID = e.matchedID
      ∧ ∃ cf2, currentFrame (updateFeatureDepths lookup u x v s).1 = Except.ok cf2
        ∧ cf2.features[j]? = some
            { e with
              depth :=
                ((cameraTransformFromState lf.state (lookupBase2cam lookup u)).inverse.mul
                  (cameraTransformFromState x (lookupBase2cam lookup u))).apply
                  (last_ft.depth • ![last_ft.undistorted.x, last_ft.undistorted.y, 1]) 2 } := by
  obtain ⟨cf1, lf1, kf, kfFrame, hcf1, hlf1, hkf, hkff, hnz, hloop⟩ :=
    updateFeatureDepths_completed lookup u x v s hdone
  rw [hcf] at hcf1
  rw [hlf] at hlf1
  cases hcf1
  cases hlf1
  obtain ⟨e1, hok, hget⟩ := propagateDepths_completed _ _ _ hloop j e he
  obtain ⟨hid, he1⟩ := propagateFeatureDepth_matched _ _ e last_ft e1 hm hlast hok
  refine ⟨hid, ?_⟩
  rw [updateFeatureDepths_state lookup u x v s cf lf kfFrame kf hcf hlf hkf hkff hnz]
  obtain ⟨fb, kfs, a⟩ := s
  refine ⟨_, currentFrame_set fb kfs _ a a cf _ hcf, ?_⟩
  rw [hget, he1]
  rfl

/-- The hypotheses of claim C5 hold on the concrete history with `d = 10` and
`t = 1`: the pass completes and the feature 2 of the current frame, matched to the
feature 1 of the last frame, gets the depth computed from it. -/
theorem C5_matched_feature_depth_witness :
    (updateFeatureDepths (some Transform.identity) Transform.identity (axisState ℚ 1) 0
        (axisScenario ℚ 10 1 7)).2 = none
      ∧ (axisFeature ℚ 1 false 0 0 10).featureID = (axisFeature ℚ 2 true 0 1 0).matchedID
      ∧ ∃ cf2, currentFrame (updateFeatureDepths (some Transform.identity) Transform.identity
            (axisState ℚ 1) 0 (axisScenario ℚ 10 1 7)).1 = Except.ok cf2
        ∧ cf2.features[0]? = some
            { axisFeature ℚ 2 true 0 1 0 with
              depth :=
                ((cameraTransformFromState (axisLastFrame ℚ 10).state
                    (lookupBase2cam (some Transform.identity) Transform.identity)).inverse.mul
                  (cameraTransformFromState (axisState ℚ 1)
                    (lookupBase2cam (some Transform.identity) Transform.identity))).apply
                  ((axisFeature ℚ 1 false 0 0 10).depth •
                    ![(axisFeature ℚ 1 false 0 0 10).undistorted.x,
                      (axisFeature ℚ 1 false 0 0 10).undistorted.y, 1]) 2 } :=
  have hdone : (updateFeatureDepths (some Transform.identity) Transform.identity
      (axisState ℚ 1) 0 (axisScenario ℚ 10 1 7)).2 = none := by
    rw [axis_updateFeatureDepths]
  have hlast : (axisLastFrame ℚ 10).features[toSizeT (axisFeature ℚ 2 true 0 1 0).matchedIndex]?
      = some (axisFeature ℚ 1 false 0 0 10) := by
    show (axisLastFrame ℚ 10).features[toSizeT 0]? = _
    rw [toSizeT_zero]
    rfl
  ⟨hdone, C5_matched_feature_depth (some Transform.identity) Transform.identity (axisState ℚ 1) 0
    (axisScenario ℚ 10 1 7) (axisCurrentFrame ℚ 1 0) (axisLastFrame ℚ 10) 0
    (axisFeature ℚ 2 true 0 1 0) (axisFeature ℚ 1 false 0 0 10) hdone
    (axis_currentFrame 10 1 7) (axis_lastFrame 10 1 7) rfl rfl hlast⟩

/-- Claim C6, evaluated at a failing input.  In the concrete history keyframe 0 stores
the feature counter 5 and its backing frame has the counter 7.  The pass raises no
error and completes, it changes the depth of the matched feature of the current frame
from 0 to 11, and it overwrites the stored counter with 7.  For every state, the
error that ends a pass, if any, is the same whatever counter keyframe 0 stores. -/
theorem C6_counter_mismatch_not_detected :
    (axisKeyFrame ℚ 5).nextFeatureID = 5 ∧ (axisLastFrame ℚ 10).nextFeatureID = 7
      ∧ updateFeatureDepths (some Transform.identity) Transform.identity (axisState ℚ 1) 0
          (axisScenario ℚ 10 1 5)
        = ({ frameBuffer := [axisLastFrame ℚ 10, axisCurrentFrame ℚ 1 11]
             keyFrames := [axisKeyFrame ℚ 7]
             active3DFeatures := [] }, none)
      ∧ (axisScenario ℚ 10 1 5).frameBuffer = [axisLastFrame ℚ 10, axisCurrentFrame ℚ 1 0]
      ∧ (axisCurrentFrame ℚ 1 0).features.map VIOFeature2D.depth = [0, 4]
      ∧ (axisCurrentFrame ℚ 1 11).features.map VIOFeature2D.depth = [11, 4]
      ∧ ∀ (lookup : Option (Transform ℚ)) (u : Transform ℚ) (x : VIOState ℚ) (v : ℚ)
          (fb : List (Frame ℚ)) (kf : KeyFrameInfo ℚ) (kfs : List (KeyFrameInfo ℚ))
          (a : List (VIOFeature3D ℚ)) (counter : Int),
          (updateFeatureDepths lookup u x v
              ⟨fb, { kf with nextFeatureID := counter } :: kfs, a⟩).2
            = (updateFeatureDepths lookup u x v ⟨fb, kf :: kfs, a⟩).2 := by
  refine ⟨rfl, rfl, ?_, rfl, rfl, rfl, ?_⟩
  · have h := axis_updateFeatureDepths (K := ℚ) 10 1 0 5
    norm_num at h
    exact h
  · intro lookup u x v fb kf kfs a counter
    exact updateFeatureDepths_counter_irrelevant lookup u x v fb kf kfs a counter

/-- Claim C7.  A feature of the current frame that is not matched is the same, in
every field, in the state that a pass of `updateFeatureDepths` leaves, for every
extrinsic, pose, threshold and state, and whether the pass completes or ends with an
error. -/
theorem C7_unmatched_feature_unchanged {K : Type} [Field K] (lookup : Option (Transform K)) (u : Transform K)
    (x : VIOState K) (v : K) (s : State K (KeyFrameInfo K)) (cf : Frame K) (j : Nat)
    (e : VIOFeature2D K) (hcf : currentFrame s = Except.ok cf)
    (he : cf.features[j]? = some e) (hm : e.matched = false) :
    ∃ cf2, currentFrame (updateFeatureDepths lookup u x v s).1 = Except.ok cf2
      ∧ cf2.features[j]? = some e := by
  obtain ⟨fb, kfs, a⟩ := s
  cases hlf : lastFrame (⟨fb, kfs, a⟩ : State K (KeyFrameInfo K)) with
  | error err =>
    simp only [updateFeatureDepths, hcf, hlf]
    exact ⟨cf, rfl, he⟩
  | ok lf =>
    cases hkf : vectorAt kfs 0 with
    | error err =>
      simp only [updateFeatureDepths, hcf, hlf, hkf]
      exact ⟨cf, rfl, he⟩
    | ok kf =>
      cases hkff : vectorAt fb (toSizeT kf.frameBufferIndex) with
      | error err =>
        simp only [updateFeatureDepths, hcf, hlf, hkf, hkff]
        exact ⟨cf, rfl, he⟩
      | ok kfFrame =>
        by_cases hnz : kfFrame.nextFeatureID = 0
        · simp only [updateFeatureDepths, hcf, hlf, hkf, hkff, hnz, if_true]
          exact ⟨cf, (currentFrame_keyFrames fb kfs _ a a).trans hcf, he⟩
        · simp only [updateFeatureDepths, hcf, hlf, hkf, hkff, if_neg hnz]
          exact ⟨_, currentFrame_set fb kfs _ a a cf _ hcf,
            propagateDepths_unmatched _ _ _ j e he hm⟩

/-- The hypotheses of claim C7 hold on the concrete history: the feature 3 of the
current frame is unmatched, and it is the same after the pass. -/
theorem C7_unmatched_feature_unchanged_witness :
    (axisFeature ℚ 3 false 0 0 4).matched = false
      ∧ ∃ cf2, currentFrame (updateFeatureDepths (some Transform.identity) Transform.identity
            (axisState ℚ 1) 0 (axisScenario ℚ 10 1 7)).1 = Except.ok cf2
        ∧ cf2.features[1]? = some (axisFeature ℚ 3 false 0 0 4) :=
  ⟨rfl, C7_unmatched_feature_unchanged (some Transform.identity) Transform.identity
    (axisState ℚ 1) 0 (axisScenario ℚ 10 1 7) (axisCurrentFrame ℚ 1 0) 1
    (axisFeature ℚ 3 false 0 0 4) (axis_currentFrame 10 1 7) rfl rfl⟩

/-- Claim C8, evaluated at a failing input.  The matrix `forwardEssential` is
`[t]x * R` for the unit translation `t = (0, 0, 1)` and the rotation `R = 1`, and
`reflectedSVD` is a singular value decomposition of it.  With that decomposition
`decomposeEssentialMatrix` returns `[-1 | t]`: the rotation block is minus the
identity, of determinant `-1`, which is not a proper rotation and is neither `R`
nor its twisted counterpart. -/
theorem C8_decomposeEssentialMatrix_improper_rotation :
    forwardEssential ℚ = crossMatrix ![0, 0, 1] * 1
      ∧ IsSVD (forwardEssential ℚ) (reflectedSVD ℚ).u (reflectedSVD ℚ).w (reflectedSVD ℚ).vt
      ∧ decomposeEssentialMatrix (fun _ => reflectedSVD ℚ) (forwardEssential ℚ)
          = !![-1, 0, 0, 0; 0, -1, 0, 0; 0, 0, -1, 1]
      ∧ rotationPart (decomposeEssentialMatrix (fun _ => reflectedSVD ℚ) (forwardEssential ℚ))
          = -1
      ∧ (rotationPart
          (decomposeEssentialMatrix (fun _ => reflectedSVD ℚ) (forwardEssential ℚ))).det = -1 := by
  have hR : decomposeEssentialMatrix (fun _ => reflectedSVD ℚ) (forwardEssential ℚ)
      = !![-1, 0, 0, 0; 0, -1, 0, 0; 0, 0, -1, 1] := by
    ext i j
    simp only [decomposeEssentialMatrix, reflectedSVD, Matrix.one_mul, Matrix.mul_apply,
      Fin.sum_univ_three, Matrix.one_apply]
    fin_cases i <;> fin_cases j <;> simp [Matrix.vecHead, Matrix.vecTail]
  have hrot : rotationPart (decomposeEssentialMatrix (fun _ => reflectedSVD ℚ)
      (forwardEssential ℚ)) = -1 := by
    rw [hR]
    ext i j
    fin_cases i <;> fin_cases j <;> simp [rotationPart, Matrix.one_apply, Matrix.vecHead, Matrix.vecTail]
  refine ⟨?_, ⟨?_, ?_, ?_, ?_, ?_⟩, hR, hrot, ?_⟩
  · ext i j
    fin_cases i <;> fin_cases j <;> simp [forwardEssential, crossMatrix]
  · simp [reflectedSVD]
  · ext i j
    simp only [reflectedSVD, Matrix.mul_apply, Matrix.transpose_apply, Fin.sum_univ_three,
      Matrix.one_apply]
    fin_cases i <;> fin_cases j <;> simp [Matrix.vecHead, Matrix.vecTail]
  · intro i
    fin_cases i <;> simp [reflectedSVD]
  · intro i j hij
    fin_cases i <;> fin_cases j <;> simp [reflectedSVD] at hij ⊢
  · ext i j
    simp only [reflectedSVD, forwardEssential, Matrix.one_mul, Matrix.mul_apply,
      Fin.sum_univ_three, Matrix.diagonal_apply]
    fin_cases i <;> fin_cases j <;> simp [Matrix.vecHead, Matrix.vecTail]
  · rw [hrot]
    norm_num [Matrix.det_neg]

/-- Claim C9.  After `sortActive3DFeaturesByVariance` the active landmarks are a
permutation of the previous ones and are ordered by non-decreasing variance, and the
rest of the state is unchanged; landmarks with the variances `0.8, 0.1, 0.5` end in
the order `0.1, 0.5, 0.8`. -/
theorem C9_sortActive3DFeaturesByVariance_ascending {K KF : Type} [LinearOrderedField K]
    (s : State K KF) (p1 p2 p3 : Fin 3 → K) (i1 i2 i3 j1 j2 j3 : Int) :
    List.Perm (sortActive3DFeaturesByVariance s).active3DFeatures s.active3DFeatures
      ∧ (sortActive3DFeaturesByVariance s).active3DFeatures.Pairwise
          (fun f g => f.variance ≤ g.variance)
      ∧ (sortActive3DFeaturesByVariance s).frameBuffer = s.frameBuffer
      ∧ (sortActive3DFeaturesByVariance s).keyFrames = s.keyFrames
      ∧ (sortActive3DFeaturesByVariance
          { s with active3DFeatures :=
            [⟨p1, 0.8, i1, j1⟩, ⟨p2, 0.1, i2, j2⟩, ⟨p3, 0.5, i3, j3⟩] }).active3DFeatures
          = [⟨p2, 0.1, i2, j2⟩, ⟨p3, 0.5, i3, j3⟩, ⟨p1, 0.8, i1, j1⟩] := by
  refine ⟨stdSort_perm _ _, stdSort_sorted _, rfl, rfl, ?_⟩
  have h1 : ¬ ((0.8 : K) < 0.5) := by norm_num
  have h2 : ((0.5 : K) < 0.8) := by norm_num
  have h3 : ¬ ((0.5 : K) < 0.1) := by norm_num
  have h4 : ((0.1 : K) < 0.5) := by norm_num
  have h5 : ((0.1 : K) < 0.8) := by norm_num
  simp [sortActive3DFeaturesByVariance, stdSort, sortInsert, less_than_key, h1, h2, h3, h4, h5]

/-- Claim C10.  If there is no keyframe record and the frame history holds at least
two frames (and, as every `size_t`, fewer than `2^64`), `updateKeyFrameInfo` ends
without error and leaves exactly one keyframe record, which points at the frame of
index `size - 2`; the frame history and the landmarks are unchanged. -/
theorem C10_updateKeyFrameInfo_first_record {K : Type} (s : State K KeyFrame)
    (hk : s.keyFrames = []) (h2 : 2 ≤ s.frameBuffer.length)
    (hsize : s.frameBuffer.length < 2 ^ 64) :
    (updateKeyFrameInfo s).2 = none
      ∧ (updateKeyFrameInfo s).1.keyFrames = [{ frame := s.frameBuffer.length - 2 }]
      ∧ s.frameBuffer.length - 2 < s.frameBuffer.length
      ∧ (updateKeyFrameInfo s).1.frameBuffer = s.frameBuffer
      ∧ (updateKeyFrameInfo s).1.active3DFeatures = s.active3DFeatures := by
  have hidx : sizeSub s.frameBuffer.length 2 = s.frameBuffer.length - 2 :=
    sizeSub_of_le _ _ h2 hsize
  have hlt : s.frameBuffer.length - 2 < s.frameBuffer.length := by omega
  have hat := vectorAt_of_lt s.frameBuffer (s.frameBuffer.length - 2) hlt
  have hval : updateKeyFrameInfo s
      = ({ s with keyFrames := [{ frame := s.frameBuffer.length - 2 }] }, none) := by
    simp only [updateKeyFrameInfo, hk, hidx, hat, List.length_nil, Nat.lt_one_iff, if_true,
      List.nil_append]
  rw [hval]
  exact ⟨rfl, rfl, hlt, rfl, rfl⟩

/-- The hypotheses of claim C10 hold on the concrete history of two frames without
keyframe record: the record created points at frame 0. -/
theorem C10_updateKeyFrameInfo_first_record_witness :
    (axisHistory ℚ 10 1).keyFrames = [] ∧ 2 ≤ (axisHistory ℚ 10 1).frameBuffer.length
      ∧ (updateKeyFrameInfo (axisHistory ℚ 10 1)).2 = none
      ∧ (updateKeyFrameInfo (axisHistory ℚ 10 1)).1.keyFrames = [{ frame := 0 }] :=
  have h := C10_updateKeyFrameInfo_first_record (axisHistory ℚ 10 1) rfl (by decide)
    (by show 2 < 2 ^ 64; norm_num)
  ⟨rfl, by decide, h.1, h.2.1⟩

/-! ### Further lemmas -/

/-- `FindOptimalImagePoints` reads the square root at the discriminant only. -/
theorem FindOptimalImagePoints_sqrt_at_discriminant {K : Type} [Field K] (sqrt : K → K)
    (E : Matrix (Fin 3) (Fin 3) K) (p1 p2 : Fin 2 → K) :
    FindOptimalImagePoints sqrt E p1 p2
      = FindOptimalImagePoints (fun _ => sqrt (discriminant E p1 p2)) E p1 p2 := rfl

/-- The discriminant of `planarForm` at the points `(1, 0)` and `(1, 0)` is `-1`. -/
theorem planarForm_discriminant : discriminant (planarForm ℚ) ![1, 0] ![1, 0] = -1 := by
  simp [discriminant, coefficientA, coefficientB, coefficientC, planarForm, homogeneous,
    squaredNorm, topLeftCorner, s_matrix, Matrix.mulVec, Matrix.dotProduct, Fin.sum_univ_succ,
    Matrix.mul_apply, Matrix.vecHead, Matrix.vecTail]

/-- Below `k`, the `size_t` difference wraps around. -/
theorem sizeSub_of_lt (n k : Nat) (hk : n < k) : sizeSub n k = n + 2 ^ 64 - k := by
  unfold sizeSub
  omega

/-- `updateKeyFrameInfo` on the history of three frames with a record at frame 0. -/
theorem appendedHistory_updateKeyFrameInfo :
    updateKeyFrameInfo (appendedHistory ℚ 10 1)
      = ({ appendedHistory ℚ 10 1 with keyFrames := [{ frame := 1 }] }, none) := by
  have hidx : sizeSub (appendedHistory ℚ 10 1).frameBuffer.length 2 = 1 :=
    sizeSub_of_le 3 2 (by norm_num) (by norm_num)
  have hat : vectorAt (appendedHistory ℚ 10 1).frameBuffer 1
      = Except.ok (axisCurrentFrame ℚ 1 0) := rfl
  have hk0 : vectorAt (appendedHistory ℚ 10 1).keyFrames 0 = Except.ok { frame := 0 } := rfl
  have hlen : ¬ ((appendedHistory ℚ 10 1).keyFrames.length < 1) := by decide
  simp only [updateKeyFrameInfo, if_neg hlen, hk0, hidx, hat]
  rfl

/-- `updateKeyFrameInfo` on the history of two frames without a record. -/
theorem axisHistory_updateKeyFrameInfo :
    updateKeyFrameInfo (axisHistory ℚ 10 1)
      = ({ axisHistory ℚ 10 1 with keyFrames := [{ frame := 0 }] }, none) := by
  have hidx : sizeSub (axisHistory ℚ 10 1).frameBuffer.length 2 = 0 :=
    sizeSub_of_le 2 2 (by norm_num) (by norm_num)
  have hat : vectorAt (axisHistory ℚ 10 1).frameBuffer 0
      = Except.ok (axisLastFrame ℚ 10) := rfl
  have hlen : (axisHistory ℚ 10 1).keyFrames.length < 1 := by decide
  simp only [updateKeyFrameInfo, if_pos hlen, hidx, hat]
  rfl

section FurtherPass

variable {K : Type} [Field K]

/-- The rotation matrix of the half turn about the first axis. -/
theorem setRotation_flipped :
    setRotation (⟨1, 0, 0, 0⟩ : Quaternion K) = !![1, 0, 0; 0, -1, 0; 0, 0, -1] := by
  ext i j
  fin_cases i <;> fin_cases j <;>
    simp [setRotation, Quaternion.length2, Matrix.vecHead, Matrix.vecTail] <;> ring

/-- The transform `last2current` between two on-axis states under the flipped
extrinsic: the translation by the opposite of the difference of the heights. -/
theorem last2current_axis_flipped (a b : K) :
    (cameraTransformFromState (axisState K a) (flippedExtrinsic K)).inverse.mul
      (cameraTransformFromState (axisState K b) (flippedExtrinsic K)) = ⟨1, ![0, 0, a - b]⟩ := by
  have h : ∀ z : K, cameraTransformFromState (axisState K z) (flippedExtrinsic K)
      = ⟨!![1, 0, 0; 0, -1, 0; 0, 0, -1], ![0, 0, z]⟩ := by
    intro z
    simp only [cameraTransformFromState, axisState, flippedExtrinsic, Transform.ofQuaternion,
      Transform.mul, Transform.apply, setRotation_identity, setRotation_flipped,
      Matrix.one_mul, Matrix.one_mulVec, Transform.mk.injEq, true_and]
    ext i
    fin_cases i <;> simp
  rw [h, h]
  simp only [Transform.inverse, Transform.mul, Transform.apply, Transform.mk.injEq]
  constructor
  · ext i j
    simp only [Matrix.mul_apply, Matrix.transpose_apply, Fin.sum_univ_three, Matrix.one_apply]
    fin_cases i <;> fin_cases j <;> simp [Matrix.vecHead, Matrix.vecTail]
  · ext i
    simp only [Matrix.mulVec, Matrix.dotProduct, Matrix.transpose_apply, Fin.sum_univ_three,
      Pi.add_apply, Pi.neg_apply]
    fin_cases i <;> simp [Matrix.vecHead, Matrix.vecTail]
    ring

/-- The first loop on the concrete history for a `last2current` that translates by
`δ` along the optical axis: the matched feature gets the depth `d + δ`. -/
theorem axis_propagateDepths_shift (d t d2 δ : K) :
    propagateDepths (⟨1, ![0, 0, δ]⟩ : Transform K) (axisLastFrame K d).features
        (axisCurrentFrame K t d2).features
      = ((axisCurrentFrame K t (d + δ)).features, none) := by
  have hl : vectorAt (axisLastFrame K d).features
      (toSizeT (axisFeature K 2 true 0 1 d2).matchedIndex)
      = Except.ok (axisFeature K 1 false 0 0 d) := by
    show vectorAt _ (toSizeT 0) = _
    rw [toSizeT_zero]
    rfl
  have e2 : (axisFeature K 2 true 0 1 d2).matched = true := rfl
  have e3 : (axisFeature K 3 false 0 0 4).matched = false := rfl
  show propagateDepths _ _ [axisFeature K 2 true 0 1 d2, axisFeature K 3 false 0 0 4] = _
  simp only [propagateDepths, propagateFeatureDepth, e2, e3, hl, if_true]
  simp [axisFeature, axisCurrentFrame, VIOFeature2D.setFeatureDepth, Transform.apply,
    Matrix.mulVec, Matrix.dotProduct, Fin.sum_univ_succ]

/-- A pass on the concrete history whose `last2current` translates by `δ` along the
optical axis: it completes and the matched feature gets the depth `d + δ`. -/
theorem axis_updateFeatureDepths_shift (lookup : Option (Transform K)) (u : Transform K)
    (d t d2 v δ : K) (counter : Int)
    (hl2c : (cameraTransformFromState (axisState K 0) (lookupBase2cam lookup u)).inverse.mul
      (cameraTransformFromState (axisState K t) (lookupBase2cam lookup u)) = ⟨1, ![0, 0, δ]⟩) :
    updateFeatureDepths lookup u (axisState K t) v (axisScenarioWith K d t d2 counter)
      = (axisScenarioWith K d t (d + δ) 7, none) := by
  have hi : currentFrameIndex (axisScenarioWith K d t d2 counter) = 1 :=
    sizeSub_of_le 2 1 (by norm_num) (by norm_num)
  have hj : lastFrameIndex (axisScenarioWith K d t d2 counter) = 0 :=
    sizeSub_of_le 2 2 (by norm_num) (by norm_num)
  have hcf : currentFrame (axisScenarioWith K d t d2 counter)
      = Except.ok (axisCurrentFrame K t d2) := by
    rw [currentFrame, hi]
    rfl
  have hlf : lastFrame (axisScenarioWith K d t d2 counter) = Except.ok (axisLastFrame K d) := by
    rw [lastFrame, hj]
    rfl
  have hkf : vectorAt (axisScenarioWith K d t d2 counter).keyFrames 0
      = Except.ok (axisKeyFrame K counter) := rfl
  have hkff : vectorAt (axisScenarioWith K d t d2 counter).frameBuffer
      (toSizeT (axisKeyFrame K counter).frameBufferIndex) = Except.ok (axisLastFrame K d) := by
    show vectorAt _ (toSizeT 0) = _
    rw [toSizeT_zero]
    rfl
  have hnz : (axisLastFrame K d).nextFeatureID ≠ 0 := by
    show (7 : Int) ≠ 0
    norm_num
  have hl2c2 : (cameraTransformFromState (axisLastFrame K d).state
      (lookupBase2cam lookup u)).inverse.mul
      (cameraTransformFromState (axisState K t) (lookupBase2cam lookup u)) = ⟨1, ![0, 0, δ]⟩ :=
    hl2c
  have h1 := updateFeatureDepths_state lookup u (axisState K t) v _ _ _ _ _ hcf hlf hkf hkff hnz
  have h2 := updateFeatureDepths_error lookup u (axisState K t) v _ _ _ _ _ hcf hlf hkf hkff hnz
  rw [hl2c2, axis_propagateDepths_shift] at h2
  rw [hl2c2, axis_propagateDepths_shift, hi] at h1
  refine Prod.ext ?_ ?_
  · rw [h1]
    rfl
  · rw [h2 rfl]
    rfl

/-- The first loop changes nothing but the depth of a feature. -/
theorem propagateDepths_depth_only (t : Transform K) (lf l : List (VIOFeature2D K)) (j : Nat)
    (e : VIOFeature2D K) (he : l[j]? = some e) :
    ∃ d, (propagateDepths t lf l).1[j]? = some { e with depth := d } := by
  induction l generalizing j with
  | nil => simp at he
  | cons a es ih =>
    unfold propagateDepths
    cases h : propagateFeatureDepth t lf a with
    | error err => exact ⟨e.depth, he⟩
    | ok a1 =>
      cases j with
      | zero =>
        have ha : a = e := by simpa using he
        subst ha
        unfold propagateFeatureDepth at h
        by_cases hm : a.matched = true
        · simp only [hm, if_true] at h
          cases hat : vectorAt lf (toSizeT a.matchedIndex) with
          | error err => simp [hat] at h
          | ok last_ft =>
            simp only [hat] at h
            by_cases hid : last_ft.featureID = a.matchedID
            · simp only [if_pos hid] at h
              cases h
              refine ⟨t.apply (last_ft.depth •
                ![last_ft.undistorted.x, last_ft.undistorted.y, 1]) 2, ?_⟩
              simp only [List.getElem?_cons_zero]
              rfl
            · simp [if_neg hid] at h
        · simp only [hm] at h
          cases h
          exact ⟨a.depth, by simp⟩
      | succ j =>
        have he2 : es[j]? = some e := by simpa using he
        obtain ⟨d, hd⟩ := ih j he2
        exact ⟨d, by simpa using hd⟩

/-- What a completed pass writes: the depths of features of the current frame, and
the feature counter of keyframe 0, which becomes the counter of its backing frame.
The other frames, the other fields of the current frame and of its features, the
other fields and records of `keyFrames`, and the landmarks are unchanged. -/
theorem updateFeatureDepths_writes (lookup : Option (Transform K)) (u : Transform K)
    (x : VIOState K) (v : K) (s : State K (KeyFrameInfo K))
    (hdone : (updateFeatureDepths lookup u x v s).2 = none) :
    ∃ (cf : Frame K) (kf : KeyFrameInfo K) (kfFrame : Frame K)
      (features : List (VIOFeature2D K)), currentFrame s = Except.ok cf
      ∧ vectorAt s.keyFrames 0 = Except.ok kf
      ∧ vectorAt s.frameBuffer (toSizeT kf.frameBufferIndex) = Except.ok kfFrame
      ∧ (updateFeatureDepths lookup u x v s).1
        = { frameBuffer := s.frameBuffer.set (currentFrameIndex s) { cf with features := features }
            keyFrames := s.keyFrames.set 0 { kf with nextFeatureID := kfFrame.nextFeatureID }
            active3DFeatures := s.active3DFeatures }
      ∧ features.length = cf.features.length
      ∧ ∀ (j : Nat) (e : VIOFeature2D K),
          cf.features[j]? = some e → ∃ d, features[j]? = some { e with depth := d } := by
  obtain ⟨cf, lf, kf, kfFrame, hcf, hlf, hkf, hkff, hnz, -⟩ :=
    updateFeatureDepths_completed lookup u x v s hdone
  exact ⟨cf, kf, kfFrame, _, hcf, hkf, hkff,
    updateFeatureDepths_state lookup u x v s cf lf kfFrame kf hcf hlf hkf hkff hnz,
    propagateDepths_length _ _ _, fun j e he => propagateDepths_depth_only _ _ _ j e he⟩

end FurtherPass

/-! ### The claims, continued -/

/-- Claim C11, refuted.  `updateKeyFrameInfo` on the history of two frames creates a
record that points at frame 0.  After a third frame is appended, a second call ends
without error and the record points at frame 1: the frame that keyframe 0 points at
has changed. -/
theorem C11_keyframe_pointer_changes :
    (updateKeyFrameInfo (axisHistory ℚ 10 1)).1.keyFrames = [{ frame := 0 }]
      ∧ appendedHistory ℚ 10 1
        = { (updateKeyFrameInfo (axisHistory ℚ 10 1)).1 with
            frameBuffer := (updateKeyFrameInfo (axisHistory ℚ 10 1)).1.frameBuffer
              ++ [axisCurrentFrame ℚ (1 + 1) 0] }
      ∧ (updateKeyFrameInfo (appendedHistory ℚ 10 1)).2 = none
      ∧ (updateKeyFrameInfo (appendedHistory ℚ 10 1)).1.keyFrames = [{ frame := 1 }]
      ∧ (updateKeyFrameInfo (appendedHistory ℚ 10 1)).1.keyFrames.map KeyFrame.frame
        ≠ (appendedHistory ℚ 10 1).keyFrames.map KeyFrame.frame := by
  rw [appendedHistory_updateKeyFrameInfo, axisHistory_updateKeyFrameInfo]
  refine ⟨rfl, rfl, rfl, rfl, ?_⟩
  decide

/-- Claim C11, amended.  If a keyframe record exists and the history holds at least
two frames (and, as every `size_t`, fewer than `2^64`), `updateKeyFrameInfo` ends
without error and points keyframe 0 at the frame of index `size - 2`, whatever frame
it pointed at; the other records, the history and the landmarks are unchanged. -/
theorem C11_updateKeyFrameInfo_repoints {K : Type} (s : State K KeyFrame) (kf0 : KeyFrame)
    (rest : List KeyFrame) (hk : s.keyFrames = kf0 :: rest) (h2 : 2 ≤ s.frameBuffer.length)
    (hsize : s.frameBuffer.length < 2 ^ 64) :
    updateKeyFrameInfo s
      = ({ s with keyFrames := { frame := s.frameBuffer.length - 2 } :: rest }, none) := by
  have hidx : sizeSub s.frameBuffer.length 2 = s.frameBuffer.length - 2 :=
    sizeSub_of_le _ _ h2 hsize
  have hlt : s.frameBuffer.length - 2 < s.frameBuffer.length := by omega
  have hat := vectorAt_of_lt s.frameBuffer (s.frameBuffer.length - 2) hlt
  have hk0 : vectorAt (kf0 :: rest) 0 = Except.ok kf0 := by simp [vectorAt]
  have hlen : ¬ ((kf0 :: rest).length < 1) := by simp
  simp only [updateKeyFrameInfo, hk, if_neg hlen, hk0, hidx, hat, List.set_cons_zero]

/-- The hypotheses of claim C11 as amended hold on the history of three frames with
a record that points at frame 0: the call points it at frame 1. -/
theorem C11_updateKeyFrameInfo_repoints_witness :
    (appendedHistory ℚ 10 1).keyFrames = [{ frame := 0 }]
      ∧ updateKeyFrameInfo (appendedHistory ℚ 10 1)
        = ({ appendedHistory ℚ 10 1 with keyFrames := [{ frame := 3 - 2 }] }, none) :=
  ⟨rfl, C11_updateKeyFrameInfo_repoints (appendedHistory ℚ 10 1) { frame := 0 } [] rfl
    (by decide) (by show 3 < 2 ^ 64; norm_num)⟩

/-- Claim C12, refuted.  For the matrix `planarForm` and the points `(1, 0)`, `(1, 0)`
the discriminant `b * b - a * c` is `-1`, and for every square root function the call
of `FindOptimalImagePoints` completes and returns two points: it ends with no error. -/
theorem C12_negative_discriminant_not_reported :
    discriminant (planarForm ℚ) ![1, 0] ![1, 0] = -1
      ∧ discriminant (planarForm ℚ) ![1, 0] ![1, 0] < 0
      ∧ (∀ sqrt : ℚ → ℚ, ∃ points,
          FindOptimalImagePointsOutcome sqrt (planarForm ℚ) ![1, 0] ![1, 0] = Except.ok points)
      ∧ ∀ sqrt : ℚ → ℚ,
          FindOptimalImagePointsOutcome sqrt (planarForm ℚ) ![1, 0] ![1, 0]
            ≠ Except.error VIOError.outOfRange
          ∧ FindOptimalImagePointsOutcome sqrt (planarForm ℚ) ![1, 0] ![1, 0]
            ≠ Except.error VIOError.assertionFailed := by
  refine ⟨planarForm_discriminant, ?_, fun sqrt => ⟨_, rfl⟩, fun sqrt => ⟨?_, ?_⟩⟩
  · rw [planarForm_discriminant]
    norm_num
  · intro h
    cases h
  · intro h
    cases h

/-- Claim C12, amended.  `FindOptimalImagePoints` has no guard on the discriminant:
for every input, every call completes and returns two points, and the points are
computed by the same formulas from the value of the square root at `b * b - a * c`,
whether that argument is negative or not. -/
theorem C12_FindOptimalImagePoints_no_guard {K : Type} [Field K] (sqrt : K → K)
    (E : Matrix (Fin 3) (Fin 3) K) (p1 p2 : Fin 2 → K) :
    FindOptimalImagePointsOutcome sqrt E p1 p2
        = Except.ok (FindOptimalImagePoints sqrt E p1 p2)
      ∧ FindOptimalImagePoints sqrt E p1 p2
        = FindOptimalImagePoints (fun _ => sqrt (discriminant E p1 p2)) E p1 p2 :=
  ⟨rfl, rfl⟩

/-- Claim C13, evaluated at a failing input.  On the concrete history in which
keyframe 0 stores the feature counter 5 and its backing frame has the counter 7, the
pass completes and the stored counter of keyframe 0 is 7 afterwards: the keyframe
record is not the same after the pass as before. -/
theorem C13_pass_overwrites_keyframe_counter :
    (updateFeatureDepths (some Transform.identity) Transform.identity (axisState ℚ 1) 0
        (axisScenario ℚ 10 1 5)).2 = none
      ∧ (axisScenario ℚ 10 1 5).keyFrames.map KeyFrameInfo.nextFeatureID = [5]
      ∧ (updateFeatureDepths (some Transform.identity) Transform.identity (axisState ℚ 1) 0
          (axisScenario ℚ 10 1 5)).1.keyFrames.map KeyFrameInfo.nextFeatureID = [7]
      ∧ (updateFeatureDepths (some Transform.identity) Transform.identity (axisState ℚ 1) 0
          (axisScenario ℚ 10 1 5)).1.keyFrames.map KeyFrameInfo.nextFeatureID
        ≠ (axisScenario ℚ 10 1 5).keyFrames.map KeyFrameInfo.nextFeatureID := by
  rw [axis_updateFeatureDepths]
  refine ⟨rfl, rfl, rfl, ?_⟩
  decide

/-- Claim C14, evaluated at a failing input.  On the concrete history a pass whose
lookup returns the extrinsic `flippedExtrinsic` completes and gives the matched feature
the depth 9; that is the last good extrinsic.  A following pass whose lookup fails is
not aborted, and its depth comes from the content of the local `base2cam`, which the
failed lookup has not written: 11 when that content is the identity, 9 when it happens
to be `flippedExtrinsic`.  The outcome of the failed pass varies with that content, and
for the identity it is not the outcome for the last good extrinsic. -/
theorem C14_failed_lookup_reads_uninitialised_local :
    updateFeatureDepths (some (flippedExtrinsic ℚ)) Transform.identity (axisState ℚ 1) 0
        (axisScenarioWith ℚ 10 1 0 7) = (axisScenarioWith ℚ 10 1 9 7, none)
      ∧ updateFeatureDepths (some (flippedExtrinsic ℚ)) Transform.identity (axisState ℚ 1) 0
          (axisScenarioWith ℚ 10 1 9 7) = (axisScenarioWith ℚ 10 1 9 7, none)
      ∧ updateFeatureDepths none Transform.identity (axisState ℚ 1) 0
          (axisScenarioWith ℚ 10 1 9 7) = (axisScenarioWith ℚ 10 1 11 7, none)
      ∧ updateFeatureDepths none (flippedExtrinsic ℚ) (axisState ℚ 1) 0
          (axisScenarioWith ℚ 10 1 9 7) = (axisScenarioWith ℚ 10 1 9 7, none)
      ∧ (axisCurrentFrame ℚ 1 11).features.map VIOFeature2D.depth = [11, 4]
      ∧ (axisCurrentFrame ℚ 1 9).features.map VIOFeature2D.depth = [9, 4]
      ∧ updateFeatureDepths none Transform.identity (axisState ℚ 1) 0
          (axisScenarioWith ℚ 10 1 9 7)
        ≠ updateFeatureDepths (some (flippedExtrinsic ℚ)) Transform.identity (axisState ℚ 1) 0
          (axisScenarioWith ℚ 10 1 9 7)
      ∧ updateFeatureDepths none Transform.identity (axisState ℚ 1) 0
          (axisScenarioWith ℚ 10 1 9 7)
        ≠ updateFeatureDepths none (flippedExtrinsic ℚ) (axisState ℚ 1) 0
          (axisScenarioWith ℚ 10 1 9 7) := by
  have hf : ∀ (lookup : Option (Transform ℚ)) (u : Transform ℚ) (d2 : ℚ),
      lookupBase2cam lookup u = flippedExtrinsic ℚ →
      updateFeatureDepths lookup u (axisState ℚ 1) 0 (axisScenarioWith ℚ 10 1 d2 7)
        = (axisScenarioWith ℚ 10 1 9 7, none) := by
    intro lookup u d2 hb
    have h := axis_updateFeatureDepths_shift lookup u 10 1 d2 0 (0 - 1) 7
      (by rw [hb]; exact last2current_axis_flipped 0 1)
    rw [h]
    norm_num
  have hn : updateFeatureDepths none Transform.identity (axisState ℚ 1) 0
      (axisScenarioWith ℚ 10 1 9 7) = (axisScenarioWith ℚ 10 1 11 7, none) := by
    have h := axis_updateFeatureDepths_shift (K := ℚ) none Transform.identity
      10 1 9 0 (1 - 0) 7 (last2current_axis 0 1)
    rw [h]
    norm_num
  have hne : (axisScenarioWith ℚ 10 1 11 7, (none : Option VIOError))
      ≠ (axisScenarioWith ℚ 10 1 9 7, none) := by
    intro h
    have h2 := congrArg (fun o : Outcome ℚ (KeyFrameInfo ℚ) =>
      o.1.frameBuffer.map (fun f => f.features.map VIOFeature2D.depth)) h
    simp [axisScenarioWith, axisLastFrame, axisCurrentFrame, axisFeature] at h2
  refine ⟨hf (some (flippedExtrinsic ℚ)) Transform.identity 0 rfl,
    hf (some (flippedExtrinsic ℚ)) Transform.identity 9 rfl, hn,
    hf none (flippedExtrinsic ℚ) 9 rfl, rfl, rfl, ?_, ?_⟩
  · rw [hn, hf (some (flippedExtrinsic ℚ)) Transform.identity 9 rfl]
    exact hne
  · rw [hn, hf none (flippedExtrinsic ℚ) 9 rfl]
    exact hne

/-- Claim C15.  For 3x4 matrices `P1`, `P2` and a homogeneous point `X` whose
projections have non-zero third coordinate, the design matrix that `TriangulateDLT`
builds from the de-homogenised projections maps `X` to zero.  `X` is not zero, so the
kernel is not trivial, and the point that `TriangulateDLT` returns lies in the kernel
too, for every singular value decomposition the library may return. -/
theorem C15_design_matrix_annihilates_point {K : Type} [LinearOrderedField K]
    (P1 P2 : Matrix (Fin 3) (Fin 4) K) (X : Fin 4 → K)
    (h1 : P1.mulVec X 2 ≠ 0) (h2 : P2.mulVec X 2 ≠ 0) :
    (design_matrix P1 P2 (hnormalized (P1.mulVec X)) (hnormalized (P2.mulVec X))).mulVec X = 0
      ∧ X ≠ 0
      ∧ ∀ (jacobiSvdMatrixV : Matrix (Fin 4) (Fin 4) K → Matrix (Fin 4) (Fin 4) K),
          (∃ U w, IsSVD
            (design_matrix P1 P2 (hnormalized (P1.mulVec X)) (hnormalized (P2.mulVec X))) U w
            (jacobiSvdMatrixV (design_matrix P1 P2 (hnormalized (P1.mulVec X))
              (hnormalized (P2.mulVec X)))).transpose) →
          (design_matrix P1 P2 (hnormalized (P1.mulVec X)) (hnormalized (P2.mulVec X))).mulVec
            (TriangulateDLT jacobiSvdMatrixV P1 P2 (hnormalized (P1.mulVec X))
              (hnormalized (P2.mulVec X))).2 = 0 := by
  have hX : X ≠ 0 := by
    intro h0
    apply h1
    rw [h0, Matrix.mulVec_zero]
    rfl
  have hAX := design_matrix_mulVec_eq_zero P1 P2 X h1 h2
  refine ⟨hAX, hX, ?_⟩
  rintro V ⟨U, w, hs⟩
  exact svd_last_row_mem_kernel _ U w _ hs X hX hAX

/-- The hypotheses of claim C15 hold for the cameras `dltPose1`, `dltPose2` and the
point `dltPoint`. -/
theorem C15_design_matrix_annihilates_point_witness :
    (dltPose1 ℝ).mulVec (dltPoint ℝ) 2 ≠ 0 ∧ (dltPose2 ℝ).mulVec (dltPoint ℝ) 2 ≠ 0
      ∧ (design_matrix (dltPose1 ℝ) (dltPose2 ℝ)
          (hnormalized ((dltPose1 ℝ).mulVec (dltPoint ℝ)))
          (hnormalized ((dltPose2 ℝ).mulVec (dltPoint ℝ)))).mulVec (dltPoint ℝ) = 0 :=
  have h1 : (dltPose1 ℝ).mulVec (dltPoint ℝ) 2 ≠ 0 := by
    simp [dltPose1, dltPoint, Matrix.mulVec, Matrix.dotProduct, Fin.sum_univ_succ]
  have h2 : (dltPose2 ℝ).mulVec (dltPoint ℝ) 2 ≠ 0 := by
    simp [dltPose2, dltPoint, Matrix.mulVec, Matrix.dotProduct, Fin.sum_univ_succ]
  ⟨h1, h2, (C15_design_matrix_annihilates_point (dltPose1 ℝ) (dltPose2 ℝ) (dltPoint ℝ) h1 h2).1⟩

/-- Claim C16.  On a correspondence that satisfies the epipolar constraint, with at
least one epipolar line non-zero (`b > 0`), `FindOptimalImagePoints` returns the two
input points.  On such an input the discriminant is `b * b`, and for a square root
that is non-negative the two divisors of the function are non-zero. -/
theorem C16_FindOptimalImagePoints_identity {K : Type} [LinearOrderedField K] (sqrt : K → K)
    (E : Matrix (Fin 3) (Fin 3) K) (p1 p2 : Fin 2 → K)
    (hc : epipolarResidual E p1 p2 = 0) (hb : 0 < coefficientB E p1 p2) :
    FindOptimalImagePoints sqrt E p1 p2 = (p1, p2)
      ∧ discriminant E p1 p2 = coefficientB E p1 p2 * coefficientB E p1 p2
      ∧ ((∀ x : K, 0 ≤ x → 0 ≤ sqrt x) →
          coefficientB E p1 p2 + sqrt (discriminant E p1 p2) ≠ 0)
      ∧ squaredNorm ((s_matrix * E).mulVec (homogeneous p2))
          + squaredNorm ((s_matrix * E.transpose).mulVec (homogeneous p1)) ≠ 0 := by
  have hc2 : dotProduct (homogeneous p1) (E.mulVec (homogeneous p2)) = 0 := hc
  have hd : discriminant E p1 p2 = coefficientB E p1 p2 * coefficientB E p1 p2 := by
    unfold discriminant coefficientC
    rw [hc2, mul_zero, sub_zero]
  have hn : ∀ p : Fin 2 → K, hnormalized (homogeneous p) = p := by
    intro p
    ext i
    fin_cases i <;> simp [hnormalized, homogeneous]
  refine ⟨?_, hd, ?_, ?_⟩
  · simp only [FindOptimalImagePoints, hc2, zero_div, zero_smul, zero_mul, Matrix.zero_mulVec,
      sub_zero, hn]
  · intro hsqrt
    have h1 : 0 ≤ sqrt (discriminant E p1 p2) := by
      apply hsqrt
      rw [hd]
      exact mul_self_nonneg _
    exact (add_pos_of_pos_of_nonneg hb h1).ne'
  · have h2 : squaredNorm ((s_matrix * E).mulVec (homogeneous p2))
        + squaredNorm ((s_matrix * E.transpose).mulVec (homogeneous p1))
        = 2 * coefficientB E p1 p2 := by
      unfold coefficientB
      ring
    rw [h2]
    exact (mul_pos two_pos hb).ne'

/-- The hypotheses of claim C16 hold for the essential matrix of a forward
translation and the points `(1, 0)` and `(2, 0)`, which satisfy its constraint. -/
theorem C16_FindOptimalImagePoints_identity_witness :
    epipolarResidual (forwardEssential ℝ) ![1, 0] ![2, 0] = 0
      ∧ 0 < coefficientB (forwardEssential ℝ) ![1, 0] ![2, 0]
      ∧ FindOptimalImagePoints Real.sqrt (forwardEssential ℝ) ![1, 0] ![2, 0]
          = (![1, 0], ![2, 0]) :=
  have hc : epipolarResidual (forwardEssential ℝ) ![1, 0] ![2, 0] = 0 := by
    simp [epipolarResidual, forwardEssential, homogeneous, Matrix.mulVec, Matrix.dotProduct,
      Fin.sum_univ_succ, Matrix.vecHead, Matrix.vecTail]
  have hb : 0 < coefficientB (forwardEssential ℝ) ![1, 0] ![2, 0] := by
    simp [coefficientB, forwardEssential, homogeneous, squaredNorm, s_matrix, Matrix.mulVec,
      Matrix.dotProduct, Fin.sum_univ_succ, Matrix.mul_apply, Matrix.vecHead, Matrix.vecTail]
    norm_num
  ⟨hc, hb, (C16_FindOptimalImagePoints_identity Real.sqrt (forwardEssential ℝ) ![1, 0] ![2, 0]
    hc hb).1⟩

/-- Claim C17.  Swapping the two views transposes the fundamental matrix:
`FundamentalMatrixFromProjectionMatrices P2 P1` is the transpose of
`FundamentalMatrixFromProjectionMatrices P1 P2`, for all 3x4 matrices. -/
theorem C17_fundamental_matrix_swap {K : Type} [Field K] (P1 P2 : Matrix (Fin 3) (Fin 4) K) :
    FundamentalMatrixFromProjectionMatrices P2 P1
      = (FundamentalMatrixFromProjectionMatrices P1 P2).transpose := by
  have hF : ∀ (A B : Matrix (Fin 3) (Fin 4) K) r c,
      FundamentalMatrixFromProjectionMatrices A B r c
      = determinant (Matrix.of ![B (index1 c), B (index2 c), A (index1 r), A (index2 r)]) :=
    fun _ _ _ _ => rfl
  ext r c
  rw [Matrix.transpose_apply, hF, hF]
  simp only [determinant, det3, Matrix.of_apply, Matrix.cons_val_zero,
    Matrix.cons_val_one, Matrix.cons_val_two, Matrix.head_cons, Matrix.tail_cons,
    Matrix.cons_val_three]
  ring

/-- Claim C18.  If the frame history holds fewer than two frames,
`updateKeyFrameInfo` ends with the out-of-range error of `at` and leaves the state as
it was: no keyframe record is added and an existing one is not re-pointed. -/
theorem C18_updateKeyFrameInfo_short_history {K : Type} (s : State K KeyFrame)
    (h : s.frameBuffer.length < 2) :
    updateKeyFrameInfo s = (s, some VIOError.outOfRange) := by
  have hidx : sizeSub s.frameBuffer.length 2 = s.frameBuffer.length + 2 ^ 64 - 2 :=
    sizeSub_of_lt _ _ h
  have hat : vectorAt s.frameBuffer (s.frameBuffer.length + 2 ^ 64 - 2)
      = Except.error VIOError.outOfRange :=
    vectorAt_error_of_le _ _ (by omega)
  cases hk : s.keyFrames with
  | nil => simp only [updateKeyFrameInfo, hk, hidx, hat, List.length_nil, Nat.lt_one_iff, if_true]
  | cons kf rest =>
    have hk0 : vectorAt (kf :: rest) 0 = Except.ok kf := by simp [vectorAt]
    have hlen : ¬ ((kf :: rest).length < 1) := by simp
    simp only [updateKeyFrameInfo, hk, if_neg hlen, hk0, hidx, hat]

/-- The hypothesis of claim C18 holds on the history of one frame with a keyframe
record, which the call leaves as it is. -/
theorem C18_updateKeyFrameInfo_short_history_witness :
    (shortHistory ℚ).frameBuffer.length < 2
      ∧ updateKeyFrameInfo (shortHistory ℚ) = (shortHistory ℚ, some VIOError.outOfRange) :=
  ⟨by decide, C18_updateKeyFrameInfo_short_history (shortHistory ℚ) (by decide)⟩

/-- Claim C19.  `TriangulateDLT` and `Triangulate` return `true` for every input,
also for identical poses, for all-zero projection matrices and when the point
returned is zero in its 4th component. -/
theorem C19_triangulation_always_true {K : Type} [Field K] (sqrt : K → K)
    (jacobiSvdMatrixV : Matrix (Fin 4) (Fin 4) K → Matrix (Fin 4) (Fin 4) K)
    (pose1 pose2 : Matrix (Fin 3) (Fin 4) K) (point1 point2 : Fin 2 → K)
    (fmatrix : Matrix (Fin 3) (Fin 3) K) :
    (TriangulateDLT jacobiSvdMatrixV pose1 pose2 point1 point2).1 = true
      ∧ (Triangulate sqrt jacobiSvdMatrixV pose1 pose2 point1 point2 fmatrix).1 = true
      ∧ (TriangulateDLT jacobiSvdMatrixV pose1 pose1 point1 point2).1 = true
      ∧ (TriangulateDLT jacobiSvdMatrixV 0 0 point1 point2).1 = true
      ∧ (Triangulate sqrt jacobiSvdMatrixV 0 0 point1 point2 fmatrix).1 = true
      ∧ (TriangulateDLT (fun _ => 0) pose1 pose2 point1 point2) = (true, 0) :=
  ⟨rfl, rfl, rfl, rfl, rfl, rfl⟩

end VIO
